import Mathlib

/-!
Verification of the Subutai agent's template & snapshot distribution engine
against its specification.

The Go source is shallowly embedded: external collaborators (CDN metadata
service, HTTP download client, IPFS node, the ZFS-backed `fs` library, the
container runtime and the persisted container-record store) are modelled as
oracles supplied in environment structures, while the agent's own control
flow (`cli` and `container` packages) is translated function by function.
Side effects are recorded as explicit event traces.
-/

set_option maxRecDepth 4000

/-- Events emitted by the embedded agent operations.  Each constructor
corresponds to one observable call the Go code makes into an external
collaborator (network, filesystem datasets, container runtime, database). -/
inductive Ev where
  | rootCheck (mounted : Bool)
  | instanceCheck (s : String) (res : Bool)      -- container.LxcInstanceExists
  | isTemplateCheck (s : String) (res : Bool)    -- container.IsTemplate
  | isContainerCheck (s : String) (res : Bool)   -- container.IsContainer
  | datasetCheck (s : String) (res : Bool)       -- fs.DatasetExists
  | netResolve (s : String)                      -- getTemplateInfo (CDN query)
  | netDownload (id : String)                    -- download(t) (gateway or IPFS)
  | lock (s : String)                            -- common.LockFile(ref, "import")
  | unlock (s : String)                          -- lock.Unlock (deferred)
  | gpgExchange                                  -- gpg.ExchangeAndEncrypt
  | decompress (src dst : String)                -- fs.Decompress
  | renameDir (src dst : String)                 -- os.Rename of extraction dir
  | destroyDataset (s : String) (force : Bool)   -- container.Destroy
  | createDataset (s : String)                   -- fs.CreateDataset
  | receiveStream (ds : String)                  -- fs.ReceiveStream
  | setReadOnly (ds : String)                    -- fs.SetDatasetReadOnly
  | copyCfg (s : String)                         -- fs.Copy of the config file
  | removeDir (d : String)                       -- os.RemoveAll
  | removeFile (f : String)                      -- os.Remove
  | cloneDataset (parent child : String)         -- container.Clone
  | setConf (s : String)                         -- container.SetContainerConf
  | saveContainer (n : String)                   -- db.SaveContainer
  | startContainer (n : String)                  -- container.Start / LxcStart
  | stopContainer (n : String)                   -- LxcStop
  | rollbackSnap (s : String) (force : Bool)     -- fs.RollbackToSnapshot
  | sleep (seconds : Nat)                        -- time.Sleep
  deriving DecidableEq, Repr

/-! Go string primitives, re-implemented structurally over `List Char` so
that every model definition evaluates inside the kernel.  Each mirrors the
corresponding function of Go's `strings` package on the ASCII data the agent
handles. -/

def listStartsWith : List Char → List Char → Bool
  | _, [] => true
  | [], _ :: _ => false
  | c :: cs, p :: ps => c = p && listStartsWith cs ps

/-- `strings.HasPrefix`. -/
def goStartsWith (s pre : String) : Bool := listStartsWith s.data pre.data

/-- `strings.HasSuffix`. -/
def goEndsWith (s sfx : String) : Bool := listStartsWith s.data.reverse sfx.data.reverse

/-- `strings.ToLower`. -/
def goToLower (s : String) : String := ⟨s.data.map Char.toLower⟩

/-- `strings.TrimSpace`. -/
def goTrim (s : String) : String :=
  ⟨((s.data.dropWhile Char.isWhitespace).reverse.dropWhile Char.isWhitespace).reverse⟩

def goDrop (s : String) (n : Nat) : String := ⟨s.data.drop n⟩

def goDropRight (s : String) (n : Nat) : String := ⟨(s.data.reverse.drop n).reverse⟩

def goLength (s : String) : Nat := s.data.length

def splitOnAux (sep : List Char) : Nat → List Char → List Char → List (List Char)
  | 0, l, acc => [acc.reverse ++ l]
  | _ + 1, [], acc => [acc.reverse]
  | fuel + 1, c :: rest, acc =>
    if listStartsWith (c :: rest) sep then
      acc.reverse :: splitOnAux sep fuel ((c :: rest).drop sep.length) []
    else
      splitOnAux sep fuel rest (c :: acc)

/-- `strings.Split` (with a nonempty separator). -/
def goSplitOn (s sep : String) : List String :=
  (splitOnAux sep.data (s.data.length + 1) s.data []).map (fun l => ⟨l⟩)

def replaceFirstAux (old new : List Char) : Nat → List Char → List Char
  | 0, l => l
  | _ + 1, [] => []
  | fuel + 1, c :: rest =>
    if listStartsWith (c :: rest) old then new ++ (c :: rest).drop old.length
    else c :: replaceFirstAux old new fuel rest

/-- `strings.Replace(s, old, new, 1)`: replace the first occurrence. -/
def goReplaceFirst (s old new : String) : String :=
  ⟨replaceFirstAux old.data new.data (s.data.length + 1) s.data⟩

/-- Outcome of an operation: Go functions in the agent either return normally
or terminate the invocation through `log.Error` / `log.Fatal`. -/
inductive Res where
  | ok
  | err (msg : String)
  deriving DecidableEq, Repr

/-- Template metadata, `type Template struct` of the cli package. -/
structure Template where
  id : String
  name : String
  owner : String
  version : String
  md5 : String
  digestMethod : String
  digestHash : String
  parent : String
  size : Int
  fullRef : String
  prefSize : String
  deriving DecidableEq, Repr

def emptyTemplate : Template :=
  ⟨"", "", "", "", "", "", "", "", 0, "", ""⟩

def maxDownloadAttempts : Nat := 3

def wrappedTemplateSuffix : String := ".tar.gz"

def Md5DigestMethod : String := "md5"

def Sha256DigestMethod : String := "sha256"

/-- Digest primitives (`fs.Sha256Sum` / `fs.Md5Sum`), external collaborators:
for each file path the digest of the bytes currently stored there. -/
structure DigestEnv where
  sha256 : String → String
  md5 : String → String

/-- `verifyChecksum` of the cli package: compares the declared digest with the
digest of the file computed under the declared method. -/
def verifyChecksum (d : DigestEnv) (template : Template) (filePath : String) : Bool :=
  if template.digestMethod = Sha256DigestMethod then
    template.digestHash = d.sha256 filePath
  else if template.digestMethod = Md5DigestMethod then
    template.digestHash = d.md5 filePath
  else
    false

/-- Oracle for one gateway download attempt (`grab` client plus the state of
the downloaded file afterwards): the error from `grab.NewRequest`, the error
from the finished transfer (`resp.Err()`), and the digests of whatever bytes
the attempt left at the target path. -/
structure AttemptOutcome where
  newReqErr : Option String
  respErr : Option String
  digests : DigestEnv

/-- `doDownload` of the cli package.  Returns `some msg` when the function
returns a non-nil error and `none` when it returns nil.  Note the faithful
translation of the transfer-error branch: the Go source reads
`if log.Check(log.DebugLevel, "Checking download status", resp.Err()) { return err }`
where `err` is the earlier `grab.NewRequest` error, provably nil on this
path — so a failed transfer returns nil (success) and skips checksum
verification.  The progress-bar UI loop has no observable effect and is
omitted; the `_wrap` rename only relocates the file before verification. -/
def doDownload (cacheDir : String) (o : AttemptOutcome) (template : Template)
    (templateUrl : String) : Option String :=
  let templatePath := cacheDir ++ "/" ++ template.id
  let _isWrapped := goEndsWith templateUrl wrappedTemplateSuffix
  match o.newReqErr with
  | some e => some e
  | none =>
    if o.respErr.isSome then
      none  -- source slip: returns the stale nil `err`, not `resp.Err()`
    else
      if verifyChecksum o.digests template templatePath then
        none
      else
        some "File integrity verification failed"

/-- Gateway environment: the configured download endpoint, the `http.Head`
probe results, and the per-attempt transfer outcomes keyed by template id and
1-based attempt number. -/
structure GatewayEnv where
  templateDownloadUrl : String
  head : String → Nat
  attempts : String → Nat → AttemptOutcome

/-- `getTemplateUrl`: probe the wrapped variant before the direct URL; abort
(`log.Error "Template not found"`) when neither HEAD returns 200.  The
`net/url` path join is approximated by string concatenation with `/`. -/
def getTemplateUrl (g : GatewayEnv) (template : Template) : Option String :=
  let directUrl := goReplaceFirst g.templateDownloadUrl "{ID}" template.id
  let wrappedUrl := directUrl ++ "/" ++ template.name ++ wrappedTemplateSuffix
  if g.head wrappedUrl = 200 then some wrappedUrl
  else if g.head directUrl = 200 then some directUrl
  else none

/-- The retry loop of `downloadFromGateway`:
`for err = doDownload(...); err != nil && attempts < maxDownloadAttempts; err = doDownload(...) { attempts++ }`.
`f n` is the result of the `n`-th `doDownload` call (1-based).  Returns the
final value of `attempts` and the final error.  The `fuel` argument only
forces structural termination; with `fuel ≥ maxDownloadAttempts - attempts`
the base case is unreachable because the loop guard `attempts <
maxDownloadAttempts` fails first. -/
def gatewayLoopAux (f : Nat → Option String) :
    Nat → Nat → Option String → Nat × Option String
  | 0, attempts, e => (attempts, e)
  | fuel + 1, attempts, e =>
    if e.isSome ∧ attempts < maxDownloadAttempts then
      gatewayLoopAux f fuel (attempts + 1) (f (attempts + 1))
    else
      (attempts, e)

def gatewayLoop (f : Nat → Option String) (attempts : Nat) (e : Option String) :
    Nat × Option String :=
  gatewayLoopAux f maxDownloadAttempts attempts e

/-- `downloadFromGateway`: resolve the URL, then run the bounded retry loop.
Returns the number of `doDownload` calls made and the final error (the
trailing `log.Check(log.ErrorLevel, "Download completed", err)` aborts
the import when that error is non-nil). -/
def downloadFromGateway (cacheDir : String) (g : GatewayEnv) (template : Template) :
    Nat × Option String :=
  match getTemplateUrl g template with
  | none => (0, some "Template not found")
  | some templateUrl =>
    let f := fun n => doDownload cacheDir (g.attempts template.id n) template templateUrl
    gatewayLoop f 1 (f 1)

/-- IPFS environment: local-node lookup, network-wide provider discovery,
fetch outcome, and the digests of the fetched (and, if the fetch yielded a
directory, relocated) file. -/
structure IpfsEnv where
  localHas : String → Bool
  networkHas : String → Bool
  fetchOk : String → Bool
  digests : DigestEnv

/-- `downloadViaLocalIPFSNode`: fails fatally when the artifact is not found
on the network, after the fetch relocates a directory result, then verifies
the checksum (`log.Fatal` on mismatch) before pinning. -/
def downloadViaLocalIPFSNode (cacheDir : String) (e : IpfsEnv) (template : Template) :
    Option String :=
  if ¬ e.localHas template.id ∧ ¬ e.networkHas template.id then
    some "Template not found in CDN network"
  else if ¬ e.fetchOk template.id then
    some "Checking download status"
  else
    let templatePath := cacheDir ++ "/" ++ template.id
    if ¬ verifyChecksum e.digests template templatePath then
      some "File integrity verification failed"
    else
      none

-- Concrete fixtures for the download claims.

def mismatchDigests : DigestEnv :=
  ⟨fun _ => "0000000000000000", fun _ => "0000000000000000"⟩

def tmplFix : Template :=
  { emptyTemplate with
    id := "QmTid", name := "master", owner := "subutai", version := "4.0.0",
    digestMethod := "sha256", digestHash := "expectedDigest" }

/-- A gateway attempt whose HTTP transfer fails midway (`resp.Err()` non-nil)
leaving partial bytes whose digest does not match the declared one. -/
def brokenTransfer : AttemptOutcome :=
  ⟨none, some "connection reset by peer", mismatchDigests⟩

/-- A gateway attempt whose transfer completes but whose bytes hash to the
wrong digest. -/
def corruptTransfer : AttemptOutcome :=
  ⟨none, none, mismatchDigests⟩

def ipfsMismatchEnv : IpfsEnv :=
  ⟨fun _ => true, fun _ => true, fun _ => true, mismatchDigests⟩

/-- Gateway environment in which every attempt completes its transfer but
yields mismatched bytes (persistent integrity failure). -/
def alwaysCorruptGateway : GatewayEnv :=
  ⟨"https://cdn.example/{ID}", fun _ => 200, fun _ _ => corruptTransfer⟩

/-! ### Snapshot operations (snapshot.go of the cli package) -/

/-- Modelled from the spec: `fs.ChildDatasets` (lib/fs, not part of the
sources under review) — "fixed ordered set {rootfs, home, var, opt}", the
unit of snapshot/delta granularity. -/
def ChildDatasets : List String := ["rootfs", "home", "var", "opt"]

/-- `getSnapshotName`: renders `(container, partition, label)` as
`ref/partition@label`, or `ref@label` when partition is `config`/`all`. -/
def getSnapshotName (container partition label : String) : String :=
  if label = "" then
    if partition = "config" then container
    else container ++ "/" ++ partition
  else
    if partition = "config" ∨ partition = "all" then container ++ "@" ++ label
    else container ++ "/" ++ partition ++ "@" ++ label

/-- `checkPartitionName`: `true` iff the argument passes both
`checkArgument` gates (nonempty, and a member of `fs.ChildDatasets` or one
of the synthetic tokens `config` / `all`). -/
def checkPartitionName (partition : String) : Bool :=
  if partition = "" then false
  else
    let partitionFound := ChildDatasets.contains partition
    if partition = "config" ∨ partition = "all" then true else partitionFound

/-- `strings.TrimPrefix`. -/
def goTrimPref (s pre : String) : String :=
  if goStartsWith s pre then goDrop s (goLength pre) else s

/-- `strings.TrimSuffix`. -/
def goTrimSuffix (s sfx : String) : String :=
  if goEndsWith s sfx then goDropRight s (goLength sfx) else s

/-- `filepath.Base`, restricted to the slash-separated paths the agent
builds: the last nonempty path element (`/` for the root path, `.` for the
empty path). -/
def filepathBase (p : String) : String :=
  let parts := (goSplitOn p "/").filter (fun s => s != "")
  match parts.getLastD "" with
  | "" => if goStartsWith p "/" then "/" else "."
  | s => s

/-- `filepath.Ext`: the suffix beginning at the final dot, empty when there
is no dot. -/
def goExt (file : String) : String :=
  match goSplitOn file "." with
  | [] => ""
  | [_] => ""
  | ps => "." ++ ps.getLastD ""

/-- `getFileName`: base name with up to three extensions stripped. -/
def getFileName (filePath : String) : String :=
  let file := filepathBase filePath
  let file := goTrimSuffix file (goExt file)
  let file := goTrimSuffix file (goExt file)
  let file := goTrimSuffix file (goExt file)
  file

/-- Filesystem/runtime state for the snapshot operations. -/
structure SnapSt where
  containers : List String   -- container2.IsContainer
  datasets : List String     -- fs.DatasetExists (datasets and snapshots)
  files : List String        -- fs.FileExists
  deriving DecidableEq, Repr

/-- Oracles for the snapshot operations. -/
structure SnapEnv where
  listSnaps : String → Option String  -- fs.ListSnapshotNamesOnly raw output
  rollbackOk : String → Bool          -- fs.RollbackToSnapshot result
  running : String → Bool             -- container2.State(...) == Running
  dsName : String                     -- config.Agent.Dataset

/-- Trace and outcome of a snapshot operation. -/
structure SRes where
  evs : List Ev
  res : Res
  deriving DecidableEq, Repr

/-- The `stopContainer` handling shared by the snapshot operations: stop a
running container for the duration of the operation and restart it on exit
(the deferred `LxcStart` runs on every exit path). -/
def withRestart (doStop : Bool) (c : String) (body : SRes) : SRes :=
  if doStop then ⟨Ev.stopContainer c :: body.evs ++ [Ev.startContainer c], body.res⟩
  else body

/-- The rollback loop of `RollbackToSnapshot` for partition `all`: each
listed snapshot name is stripped of the dataset prefix, trimmed, filtered by
the `@label` suffix and rolled back; a rollback error aborts. -/
def rollbackList (rollbackOk : String → Bool) (dsName label : String) (force : Bool) :
    List String → List Ev × Res
  | [] => ([], .ok)
  | s :: rest =>
    let s := goTrim (goTrimPref s dsName)
    if s ≠ "" ∧ goEndsWith s ("@" ++ label) then
      if rollbackOk s then
        let r := rollbackList rollbackOk dsName label force rest
        (Ev.rollbackSnap s force :: r.1, r.2)
      else
        ([Ev.rollbackSnap s force], .err "Failed to rollback to snapshot")
    else
      rollbackList rollbackOk dsName label force rest

/-- `RollbackToSnapshot` of the cli package.  Argument normalization,
validation, the existence precondition (`checkCondition` whose fallback
checks the four fixed partitions only when the `container@label` dataset is
absent and partition is `all`), optional stop/restart, then the rollback:
listing-based for `all`, direct otherwise. -/
def RollbackToSnapshot (env : SnapEnv) (st : SnapSt) (container partition label : String)
    (forceRollback stopCont : Bool) : SRes :=
  let c := goTrim container
  let p := goToLower (goTrim partition)
  let l := goToLower (goTrim label)
  if c = "" then ⟨[], .err "Invalid container name"⟩
  else if checkPartitionName p = false then ⟨[], .err ("Invalid partition " ++ p)⟩
  else if l = "" then ⟨[], .err "Invalid snapshot label"⟩
  else if st.containers.contains c = false then ⟨[], .err ("Container " ++ c ++ " not found")⟩
  else
    let snapshot := getSnapshotName c p l
    let pre : Res :=
      if st.datasets.contains snapshot then .ok
      else if p ≠ "all" then .err ("Snapshot " ++ snapshot ++ " does not exist")
      else
        match ChildDatasets.find?
            (fun part => ! st.datasets.contains (getSnapshotName c part l)) with
        | some part => .err ("Snapshot " ++ getSnapshotName c part l ++ " does not exist")
        | none => .ok
    match pre with
    | .err m => ⟨[], .err m⟩
    | .ok =>
      withRestart (stopCont && env.running c) c
        (if p = "all" then
          match env.listSnaps c with
          | none => ⟨[], .err "Failed to list snapshots"⟩
          | some out =>
            let r := rollbackList env.rollbackOk env.dsName l forceRollback (goSplitOn out "\n")
            ⟨r.1, r.2⟩
        else
          if env.rollbackOk snapshot then ⟨[Ev.rollbackSnap snapshot forceRollback], .ok⟩
          else ⟨[Ev.rollbackSnap snapshot forceRollback], .err "Failed to rollback to snapshot"⟩)

/-- Oracles for `ReceiveContainerSnapshots`. -/
structure RecvEnv where
  cacheDir : String
  archiveFiles : String → Option (List String)  -- files inside the extracted dir
  receiveOk : String → Bool                     -- fs.ReceiveStream result
  copyOk : Bool                                 -- fs.Copy of the config file

/-- Trace, outcome and final state of `ReceiveContainerSnapshots`. -/
structure RRes where
  evs : List Ev
  res : Res
  st : SnapSt
  deriving DecidableEq, Repr

/-- The receive loop of `ReceiveContainerSnapshots`: receives each delta into
the corresponding partition dataset in append mode; an error aborts. -/
def recvLoop (receiveOk : String → Bool) (container : String) :
    List String → List Ev × Res
  | [] => ([], .ok)
  | p :: rest =>
    let ds := container ++ "/" ++ p
    if receiveOk ds then
      let r := recvLoop receiveOk container rest
      (Ev.receiveStream ds :: r.1, r.2)
    else
      ([Ev.receiveStream ds], .err ("Receiving snapshots for partition " ++ p))

/-- `ReceiveContainerSnapshots` of the cli package: resolve the source file
(directly or under the cache dir), extract, verify the four per-partition
delta files and the config file are present, create the target dataset if
absent, receive each delta, copy the config, remove the temp dir. -/
def ReceiveContainerSnapshots (env : RecvEnv) (st : SnapSt) (container sourceFile : String) :
    RRes :=
  let c := goTrim container
  if c = "" then ⟨[], .err "Invalid container name", st⟩
  else
    let sf := goTrim sourceFile
    if sf = "" then ⟨[], .err "Invalid path to snapshots file", st⟩
    else
      let src? : Option String :=
        if st.files.contains sf then some sf
        else if st.files.contains (env.cacheDir ++ "/" ++ sf) then
          some (env.cacheDir ++ "/" ++ sf)
        else none
      match src? with
      | none => ⟨[], .err ("File " ++ sf ++ " not found"), st⟩
      | some src =>
        let dest := env.cacheDir ++ "/" ++ getFileName src
        match env.archiveFiles src with
        | none => ⟨[Ev.decompress src dest], .err "Decompressing snapshots file", st⟩
        | some fl =>
          match ChildDatasets.find? (fun p => ! fl.contains (p ++ ".delta")) with
          | some p =>
            ⟨[Ev.decompress src dest],
             .err ("Snapshot file for partition " ++ p ++ " not found"), st⟩
          | none =>
            if fl.contains "config" = false then
              ⟨[Ev.decompress src dest], .err "Config file not found", st⟩
            else
              let pre := if st.datasets.contains c then ([], st)
                else ([Ev.createDataset c], { st with datasets := c :: st.datasets })
              let recvd := recvLoop env.receiveOk c ChildDatasets
              match recvd.2 with
              | .err m => ⟨Ev.decompress src dest :: pre.1 ++ recvd.1, .err m, pre.2⟩
              | .ok =>
                if env.copyOk then
                  ⟨Ev.decompress src dest :: pre.1 ++ recvd.1 ++
                     [Ev.copyCfg c, Ev.removeDir dest], .ok, pre.2⟩
                else
                  ⟨Ev.decompress src dest :: pre.1 ++ recvd.1 ++ [Ev.copyCfg c],
                   .err "Copying config file", pre.2⟩

/-! ### StateSupervisor (restore.go of the container package) -/

/-- Desired container state as persisted in the container-record store. -/
inductive DState where
  | Running
  | Stopped
  deriving DecidableEq, Repr

/-- A persisted container record (`db.Container`, fields beyond name and
state are irrelevant to the supervisor). -/
structure DbRec where
  name : String
  state : DState
  deriving DecidableEq, Repr

/-- Oracles for one reconciliation cycle. -/
structure SupEnv where
  fetchErr : Bool               -- db.FindContainers failure (fail-open)
  runningNow : String → Bool    -- container.State(name) == container.Running
  startOk : String → Nat → Bool -- container.Start, keyed by 0-based attempt

/-- The retry loop of `doRestore`:
`for i := 0; i < 5 && startErr != nil; i++ { time.Sleep(5+i); startErr = container.Start(name) }`.
`failed` is `startErr != nil`; attempt `i + 1` is the (i+1)-th retry. -/
def retryLoop (env : SupEnv) (name : String) : Nat → Nat → Bool → List Ev × Bool
  | 0, _, failed => ([], failed)
  | fuel + 1, i, failed =>
    if i < 5 ∧ failed then
      let ok := env.startOk name (i + 1)
      let r := retryLoop env name fuel (i + 1) (! ok)
      (Ev.sleep (5 + i) :: Ev.startContainer name :: r.1, r.2)
    else
      ([], failed)

/-- Handling of one desired-Running entry in `doRestore`: skip when already
running; otherwise start with up to 5 retries, and on persistent failure
downgrade the record to Stopped and save it. -/
def handleEntry (env : SupEnv) (v : DbRec) : List Ev × Option DbRec :=
  if env.runningNow v.name then ([], none)
  else
    let ok0 := env.startOk v.name 0
    let r := retryLoop env v.name 5 0 (! ok0)
    if r.2 then
      (Ev.startContainer v.name :: r.1 ++ [Ev.saveContainer v.name],
       some { v with state := DState.Stopped })
    else
      (Ev.startContainer v.name :: r.1, none)

/-- `db.SaveContainer`: replace the record with the same name. -/
def saveRec (db : List DbRec) (v : DbRec) : List DbRec :=
  db.map (fun r => if r.name = v.name then v else r)

/-- Sequential processing of the active entries within one cycle. -/
def restoreLoop (env : SupEnv) (db : List DbRec) : List DbRec → List Ev × List DbRec
  | [] => ([], db)
  | v :: rest =>
    let h := handleEntry env v
    let db1 := match h.2 with
      | some v2 => saveRec db v2
      | none => db
    let r := restoreLoop env db1 rest
    (h.1 ++ r.1, r.2)

/-- One cycle of `doRestore`: fetch the desired-Running subset (empty on a
store error — fail-open) and reconcile each entry sequentially. -/
def doRestore (env : SupEnv) (db : List DbRec) : List Ev × List DbRec :=
  let active := if env.fetchErr then []
    else db.filter (fun r => decide (r.state = DState.Running))
  restoreLoop env db active

/-! ### LxcImport (import.go of the cli package) -/

/-- Modelled from the spec: `container.Management` (lib/container, not part
of the sources under review) — the designated management template identity. -/
def Management : String := "management"

/-- `stringInList` of the cli package. -/
def stringInList (s : String) (list : List String) : Bool :=
  match list with
  | [] => false
  | i :: rest => if s = i then true else stringInList s rest

/-- Runtime/filesystem state threaded through an import. -/
structure ImportSt where
  instances : List String    -- container.LxcInstanceExists
  templates : List String    -- container.IsTemplate
  containers : List String   -- container.IsContainer
  datasets : List String     -- fs.DatasetExists
  files : List String        -- fs.FileExists
  deriving DecidableEq, Repr

/-- The template-identity and parent fields read from an extracted template
config via `container.GetConfigItem`. -/
structure ConfigData where
  tName : String
  tOwner : String
  tVersion : String
  parent : String
  parentOwner : String
  parentVersion : String
  deriving DecidableEq, Repr

/-- Success/failure oracles for the dataset-level steps of an install. -/
structure FsOracle where
  createOk : String → Bool
  receiveOk : String → Bool
  setROOk : String → Bool
  copyOk : String → Bool
  renameOk : Bool
  setConfOk : Bool

/-- Environment of an import: configuration plus all external collaborators. -/
structure ImportEnv where
  rootMounted : Bool                       -- fs.DatasetExists("")
  cacheDir : String                        -- config.Agent.CacheDir
  resolve : String → Option Template       -- getTemplateInfo via the CDN
  archiveConfig : String → Option ConfigData -- fs.Decompress + GetConfigItem
  digests : DigestEnv                      -- digests of cached archives
  gatewayValid : Bool                      -- isValidUrl(config.CDN.TemplateDownloadUrl)
  gw : GatewayEnv
  ipfs : IpfsEnv
  fso : FsOracle

/-- Trace, outcome and final state of an import invocation. -/
structure MRes where
  evs : List Ev
  res : Res
  st : ImportSt
  deriving DecidableEq, Repr

/-- Prefix a trace onto an import result. -/
def withEvs (e : List Ev) (m : MRes) : MRes :=
  ⟨e ++ m.evs, m.res, m.st⟩

/-- The `common.LockFile(templateRef, "import")` acquisition (spin-retry
until acquired) with the deferred `lock.Unlock()`.  Per the spec's
`InstallLock` contract the release happens on every exit path of the locked
body, normal return or abort. -/
def withLock (ref : String) (body : MRes) : MRes :=
  ⟨Ev.lock ref :: body.evs ++ [Ev.unlock ref], body.res, body.st⟩

/-- The receive half of `install`: the source unrolls the four partitions
rootfs, home, var, opt in exactly the `ChildDatasets` order; an error stops
the sequence. -/
def recvAllTr (fso : FsOracle) (templateName : String) : List String → List Ev × Bool
  | [] => ([], true)
  | p :: rest =>
    let ds := templateName ++ "/" ++ p
    if fso.receiveOk ds then
      let r := recvAllTr fso templateName rest
      (Ev.receiveStream ds :: r.1, r.2)
    else
      ([Ev.receiveStream ds], false)

/-- The read-only half of `install`, same unrolled partition order. -/
def setROAllTr (fso : FsOracle) (templateName : String) : List String → List Ev × Bool
  | [] => ([], true)
  | p :: rest =>
    let ds := templateName ++ "/" ++ p
    if fso.setROOk ds then
      let r := setROAllTr fso templateName rest
      (Ev.setReadOnly ds :: r.1, r.2)
    else
      ([Ev.setReadOnly ds], false)

/-- `install` of the cli package: create the parent dataset, receive the four
partition deltas, set the four partitions read-only, copy the config.
Returns (events, dataset was created, fully installed).  Any failing step
aborts the remaining steps; `LxcImport` discards the returned error. -/
def install (fso : FsOracle) (templateName : String) : List Ev × Bool × Bool :=
  if fso.createOk templateName then
    let r1 := recvAllTr fso templateName ChildDatasets
    if r1.2 then
      let r2 := setROAllTr fso templateName ChildDatasets
      if r2.2 then
        (Ev.createDataset templateName :: r1.1 ++ r2.1 ++ [Ev.copyCfg templateName],
         true, fso.copyOk templateName)
      else
        (Ev.createDataset templateName :: r1.1 ++ r2.1, true, false)
    else
      (Ev.createDataset templateName :: r1.1, true, false)
  else
    ([Ev.createDataset templateName], false, false)

/-- Lines 367-372 of import.go: destroy a pre-existing dataset under the
reference, then install; the threaded state records what the steps created. -/
def installStep (fso : FsOracle) (st : ImportSt) (ref : String) : List Ev × ImportSt :=
  let dsE := st.datasets.contains ref
  let st0 := if dsE then
      { st with datasets := st.datasets.filter (fun s => s != ref),
                templates := st.templates.filter (fun s => s != ref),
                instances := st.instances.filter (fun s => s != ref) }
    else st
  let r := install fso ref
  let st1 := { st0 with
    datasets := if r.2.1 then ref :: st0.datasets else st0.datasets,
    templates := if r.2.2 then ref :: st0.templates else st0.templates,
    instances := if r.2.2 then ref :: st0.instances else st0.instances }
  ((Ev.datasetCheck ref dsE :: if dsE then [Ev.destroyDataset ref true] else []) ++ r.1, st1)

/-- `initManagement`: clone the management container from the template and
boot it.  The gpg key generation, DNS/network setup and proxy-port commands
are external side effects with no constructor in `Ev`; the dataset clone,
lxc config write, container start and database record write are kept. -/
def initManagement (st : ImportSt) (templateRef : String) : List Ev × ImportSt :=
  ([Ev.cloneDataset templateRef Management, Ev.setConf Management,
    Ev.startContainer Management, Ev.saveContainer Management],
   { st with instances := Management :: st.instances,
             containers := Management :: st.containers,
             datasets := Management :: st.datasets })

/-- `download(t)`: gateway when the configured endpoint parses as a URL,
IPFS otherwise; the trailing error check aborts the import on failure. -/
def downloadResult (env : ImportEnv) (t : Template) : Option String :=
  if env.gatewayValid then (downloadFromGateway env.cacheDir env.gw t).2
  else downloadViaLocalIPFSNode env.cacheDir env.ipfs t

/-- Lines 364-387 of import.go (after the parent recursion): install under
the (possibly renamed) reference, clean up the extraction dir and the cached
archive of a remote import, then the management bootstrap or the lxc config
update. -/
def importAfterParent (env : ImportEnv) (st : ImportSt) (lcl : Bool) (t : Template)
    (ref2 archive extractDir2 : String) : MRes :=
  let r := installStep env.fso st ref2
  let e5 := r.1 ++ [Ev.removeDir extractDir2] ++ (if lcl then [] else [Ev.removeFile archive])
  let st5 := if lcl then r.2
    else { r.2 with files := r.2.files.filter (fun s => s != archive) }
  if t.name = Management then
    let m := initManagement st5 ref2
    ⟨e5 ++ m.1, .ok, m.2⟩
  else
    if env.fso.setConfOk then ⟨e5 ++ [Ev.setConf ref2], .ok, st5⟩
    else ⟨e5 ++ [Ev.setConf ref2], .err "Setting lxc config", st5⟩

/-- Lines 352-362 of import.go: read the declared parent reference; recurse
when it differs from the current reference, is not an installed template and
is not already queued (both are appended to the queued list before the
recursive call). -/
def importParentStep (env : ImportEnv)
    (recur : ImportSt → String → String → List String → MRes)
    (st : ImportSt) (lcl : Bool) (t : Template)
    (ref2 archive extractDir2 token : String) (cfg : ConfigData)
    (aux : List String) : MRes :=
  let parentRef := cfg.parent ++ ":" ++ cfg.parentOwner ++ ":" ++ cfg.parentVersion
  if parentRef = ref2 then importAfterParent env st lcl t ref2 archive extractDir2
  else
    let pit := st.templates.contains parentRef
    if pit then
      withEvs [Ev.isTemplateCheck parentRef true]
        (importAfterParent env st lcl t ref2 archive extractDir2)
    else if stringInList parentRef aux then
      withEvs [Ev.isTemplateCheck parentRef false]
        (importAfterParent env st lcl t ref2 archive extractDir2)
    else
      let aux2 := aux ++ [parentRef, ref2]
      let r := recur st parentRef token aux2
      match r.res with
      | .err m => ⟨Ev.isTemplateCheck parentRef false :: r.evs, .err m, r.st⟩
      | .ok =>
        withEvs (Ev.isTemplateCheck parentRef false :: r.evs)
          (importAfterParent env r.st lcl t ref2 archive extractDir2)

/-- Lines 347-350 of import.go: abort (removing the extraction dir) when the
reference is already an installed template. -/
def importCheckExisting (env : ImportEnv)
    (recur : ImportSt → String → String → List String → MRes)
    (st : ImportSt) (lcl : Bool) (t : Template)
    (ref2 archive extractDir2 token : String) (cfg : ConfigData)
    (aux : List String) : MRes :=
  if st.templates.contains ref2 then
    ⟨[Ev.isTemplateCheck ref2 true, Ev.removeDir extractDir2], .err (ref2 ++ " exists"), st⟩
  else
    withEvs [Ev.isTemplateCheck ref2 false]
      (importParentStep env recur st lcl t ref2 archive extractDir2 token cfg aux)

/-- Lines 330-345 of import.go: unpack the archive (fatal on error) and, for
a local import, rename the extraction dir to the config-declared full
reference. -/
def importExtract (env : ImportEnv)
    (recur : ImportSt → String → String → List String → MRes)
    (st : ImportSt) (lcl : Bool) (t : Template) (ref archive token : String)
    (aux : List String) : MRes :=
  let extractDir := env.cacheDir ++ "/" ++ ref
  match env.archiveConfig archive with
  | none => ⟨[Ev.decompress archive extractDir], .err "Extracting tgz", st⟩
  | some cfg =>
    if lcl then
      let ref2 := cfg.tName ++ ":" ++ cfg.tOwner ++ ":" ++ cfg.tVersion
      let extractDir2 := env.cacheDir ++ "/" ++ ref2
      if env.fso.renameOk then
        withEvs [Ev.decompress archive extractDir, Ev.renameDir extractDir extractDir2]
          (importCheckExisting env recur st lcl t ref2 archive extractDir2 token cfg aux)
      else
        ⟨[Ev.decompress archive extractDir, Ev.renameDir extractDir extractDir2],
         .err "Renaming template", st⟩
    else
      withEvs [Ev.decompress archive extractDir]
        (importCheckExisting env recur st lcl t ref archive extractDir token cfg aux)

/-- Lines 302-328 of import.go: the cache check (with integrity verification
for remote imports, a silent re-download on mismatch) and the download. -/
def importEnsureArchive (env : ImportEnv)
    (recur : ImportSt → String → String → List String → MRes)
    (st : ImportSt) (lcl : Bool) (t : Template) (ref archive token : String)
    (aux : List String) : MRes :=
  let cached := st.files.contains archive
  let archiveExists := cached && (lcl || verifyChecksum env.digests t archive)
  if archiveExists then
    importExtract env recur st lcl t ref archive token aux
  else
    match downloadResult env t with
    | some m => ⟨[Ev.netDownload t.id], .err m, st⟩
    | none =>
      withEvs [Ev.netDownload t.id]
        (importExtract env recur { st with files := archive :: st.files }
          lcl t ref archive token aux)

/-- Lines 291-300 of import.go (inside the lock): the idempotent
short-circuit when the reference is already an instance, including the
management bootstrap special case. -/
def importBody (env : ImportEnv)
    (recur : ImportSt → String → String → List String → MRes)
    (st : ImportSt) (lcl : Bool) (t : Template) (ref archive token : String)
    (aux : List String) : MRes :=
  if st.instances.contains ref then
    if t.name = Management then
      if st.containers.contains Management then
        ⟨[Ev.instanceCheck ref true, Ev.isContainerCheck Management true], .ok, st⟩
      else
        let m := initManagement st ref
        ⟨[Ev.instanceCheck ref true, Ev.isContainerCheck Management false] ++ m.1, .ok, m.2⟩
    else
      ⟨[Ev.instanceCheck ref true], .ok, st⟩
  else
    withEvs [Ev.instanceCheck ref false]
      (importEnsureArchive env recur st lcl t ref archive token aux)

/-- `LxcImport` of the cli package.  The fuel argument bounds the parent
recursion depth (the Go source recurses without an explicit bound; every
claim is settled at sufficient fuel).  Events before the lock: the root
dataset check, the management-with-token early path's instance check, and
the CDN metadata resolution. -/
def LxcImport (env : ImportEnv) : Nat → ImportSt → String → String → List String → MRes
  | 0, st, _, _, _ => ⟨[], .err "recursion out of fuel", st⟩
  | fuel + 1, st, name, token, aux =>
    if ¬ env.rootMounted then ⟨[Ev.rootCheck false], .err "Root dataset not mounted", st⟩
    else
      let ien := st.instances.contains name
      let e0 := [Ev.rootCheck true, Ev.instanceCheck name ien]
      if ien ∧ name = Management ∧ goLength token > 1 then
        ⟨e0 ++ [Ev.gpgExchange], .ok, st⟩
      else if st.files.contains name then
        let t := { emptyTemplate with name := filepathBase name }
        let ref := "tmpl_" ++ t.name
        withEvs e0
          (withLock ref (importBody env (LxcImport env fuel) st true t ref name token aux))
      else
        match env.resolve name with
        | none => ⟨e0 ++ [Ev.netResolve name], .err ("Invalid template name " ++ name), st⟩
        | some t =>
          let ref := t.name ++ ":" ++ t.owner ++ ":" ++ t.version
          let archive := env.cacheDir ++ "/" ++ t.id
          withEvs (e0 ++ [Ev.netResolve name])
            (withLock ref
              (importBody env (LxcImport env fuel) st false t ref archive token aux))

/-- The template reference the import computes for locking (lines 263-281 of
import.go), mirroring the control flow up to the lock; `none` when the
invocation exits before computing it. -/
def computedRef (env : ImportEnv) (st : ImportSt) (name token : String) : Option String :=
  if ¬ env.rootMounted then none
  else if st.instances.contains name ∧ name = Management ∧ goLength token > 1 then none
  else if st.files.contains name then some ("tmpl_" ++ filepathBase name)
  else
    match env.resolve name with
    | none => none
    | some t => some (t.name ++ ":" ++ t.owner ++ ":" ++ t.version)

/-! ### Predicates used in the claim statements -/

/-- Network calls made by an import. -/
def isNetworkEv : Ev → Bool
  | .netResolve _ => true
  | .netDownload _ => true
  | _ => false

/-- Archive-download network calls. -/
def isDownloadEv : Ev → Bool
  | .netDownload _ => true
  | _ => false

/-- Calls that mutate dataset or snapshot state. -/
def isDatasetMutEv : Ev → Bool
  | .createDataset _ => true
  | .receiveStream _ => true
  | .setReadOnly _ => true
  | .destroyDataset _ _ => true
  | .cloneDataset _ _ => true
  | .rollbackSnap _ _ => true
  | _ => false

/-- Snapshot/dataset rollback events. -/
def isRollbackEv : Ev → Bool
  | .rollbackSnap _ _ => true
  | _ => false

/-- The dataset-creation events of a trace. -/
def createdRef : Ev → Option String
  | .createDataset r => some r
  | _ => none

/-- The metadata resolutions of a trace. -/
def resolvedRef : Ev → Option String
  | .netResolve s => some s
  | _ => none

/-- Checks of whether the given reference is already installed
(`LxcInstanceExists`, `IsTemplate` or `DatasetExists` on that reference). -/
def isRefCheckOf (ref : String) : Ev → Bool
  | .instanceCheck s _ => s = ref
  | .isTemplateCheck s _ => s = ref
  | .datasetCheck s _ => s = ref
  | _ => false

/-- Every installed-check of `ref` in the trace comes strictly after a
`lock ref` event. -/
def lockBeforeChecks (ref : String) (l : List Ev) : Prop :=
  ∀ i e, l.get? i = some e → isRefCheckOf ref e = true →
    ∃ j, j < i ∧ l.get? j = some (Ev.lock ref)

/-- Every lock acquisition in the trace has a matching release. -/
def lockBalanced (l : List Ev) : Prop :=
  ∀ s, l.count (Ev.lock s) = l.count (Ev.unlock s)

/-- Every dataset creation in the trace is preceded by a force-destroy of
that dataset or by an existence check that found it absent. -/
def destroyBeforeCreate (l : List Ev) : Prop :=
  ∀ i r, l.get? i = some (Ev.createDataset r) →
    ∃ j, j < i ∧ (l.get? j = some (Ev.destroyDataset r true) ∨
                  l.get? j = some (Ev.datasetCheck r false))

/-- The trailing `log.Check(log.ErrorLevel, "Download completed", err)` of
`downloadFromGateway`: the import aborts when the retry loop ends with an
error, so the pipeline never proceeds past a failed verification. -/
def downloadCompletedCheck (r : Nat × Option String) : Res :=
  match r.2 with
  | some m => .err m
  | none => .ok

/-! ### Concrete fixtures -/

/-- An `FsOracle` in which every dataset step succeeds. -/
def allOkFs : FsOracle :=
  ⟨fun _ => true, fun _ => true, fun _ => true, fun _ => true, true, true⟩

/-- An IPFS node that has nothing (unused on gateway-mode runs). -/
def idleIpfs : IpfsEnv :=
  ⟨fun _ => false, fun _ => false, fun _ => false, mismatchDigests⟩

def refMaster : String := "master:subutai:4.0.0"

def tMaster : Template :=
  { emptyTemplate with
    id := "idM", name := "master", owner := "subutai", version := "4.0.0",
    digestMethod := "sha256", digestHash := "hM" }

/-- Environment for importing `master@subutai:4.0.0`. -/
def envMaster : ImportEnv :=
  { rootMounted := true, cacheDir := "cache",
    resolve := fun s => if s = "master@subutai:4.0.0" then some tMaster else none,
    archiveConfig := fun _ => none,
    digests := mismatchDigests,
    gatewayValid := true, gw := alwaysCorruptGateway, ipfs := idleIpfs, fso := allOkFs }

/-- State in which `master:subutai:4.0.0` is already installed. -/
def stInstalled : ImportSt :=
  ⟨[refMaster], [refMaster], [], [refMaster], []⟩

def emptySt : ImportSt := ⟨[], [], [], [], []⟩

-- The dependency chain fixture: importing `c@o:1.0.0` whose parent chain is
-- C → B → A → A (A is a self-referencing root).

def tA : Template :=
  { emptyTemplate with
    id := "idA", name := "a", owner := "o", version := "1.0.0",
    digestMethod := "md5", digestHash := "hA" }

def tB : Template :=
  { emptyTemplate with
    id := "idB", name := "b", owner := "o", version := "1.0.0",
    digestMethod := "md5", digestHash := "hB" }

def tC : Template :=
  { emptyTemplate with
    id := "idC", name := "c", owner := "o", version := "1.0.0",
    digestMethod := "md5", digestHash := "hC" }

def chainCfg (nm par : String) : ConfigData :=
  ⟨nm, "o", "1.0.0", par, "o", "1.0.0"⟩

def chainDigests : DigestEnv :=
  ⟨fun _ => "",
   fun p => if p = "cache/idA" then "hA"
     else if p = "cache/idB" then "hB"
     else if p = "cache/idC" then "hC"
     else ""⟩

def chainGateway : GatewayEnv :=
  ⟨"https://cdn.example/{ID}", fun _ => 200, fun _ _ => ⟨none, none, chainDigests⟩⟩

def chainEnv : ImportEnv :=
  { rootMounted := true, cacheDir := "cache",
    resolve := fun s => if s = "c@o:1.0.0" then some tC
      else if s = "b:o:1.0.0" then some tB
      else if s = "a:o:1.0.0" then some tA
      else none,
    archiveConfig := fun a => if a = "cache/idC" then some (chainCfg "c" "b")
      else if a = "cache/idB" then some (chainCfg "b" "a")
      else if a = "cache/idA" then some (chainCfg "a" "a")
      else none,
    digests := chainDigests,
    gatewayValid := true, gw := chainGateway, ipfs := idleIpfs, fso := allOkFs }

-- Self-parent fixture with a pre-existing dataset under the reference.

def tS : Template :=
  { emptyTemplate with
    id := "idS", name := "s", owner := "o", version := "1.0.0",
    digestMethod := "md5", digestHash := "hS" }

def selfDigests : DigestEnv :=
  ⟨fun _ => "", fun p => if p = "cache/idS" then "hS" else ""⟩

def envSelf : ImportEnv :=
  { rootMounted := true, cacheDir := "cache",
    resolve := fun s => if s = "s@o:1.0.0" then some tS else none,
    archiveConfig := fun a => if a = "cache/idS" then some (chainCfg "s" "s") else none,
    digests := selfDigests,
    gatewayValid := true,
    gw := ⟨"https://cdn.example/{ID}", fun _ => 200, fun _ _ => ⟨none, none, selfDigests⟩⟩,
    ipfs := idleIpfs, fso := allOkFs }

/-- State with a stale dataset (but no registered instance) under the
reference `s:o:1.0.0`. -/
def stStaleDs : ImportSt := ⟨[], [], [], ["s:o:1.0.0"], []⟩

-- Rollback fixture: container-level snapshot exists, `home` partition
-- snapshot removed.

def st5 : SnapSt :=
  ⟨["web1"],
   ["web1@snap", "web1/rootfs@snap", "web1/var@snap", "web1/opt@snap"],
   []⟩

def env5 : SnapEnv :=
  ⟨fun c => if c = "web1" then
      some "pool/web1/rootfs@snap\npool/web1@snap\npool/web1/var@snap\npool/web1/opt@snap"
    else none,
   fun _ => true, fun _ => false, "pool/"⟩

-- Bundle fixture for Scenario D: `var.delta` missing from the archive.

def st6 : SnapSt := ⟨["web1"], [], ["/bundle.tar.gz"]⟩

def recvEnv6 : RecvEnv :=
  ⟨"cache",
   fun s => if s = "/bundle.tar.gz" then
      some ["rootfs.delta", "home.delta", "opt.delta", "config"]
    else none,
   fun _ => true, true⟩

-- Supervisor fixture: one desired-Running container whose starts all fail.

def supFailEnv : SupEnv := ⟨false, fun _ => false, fun _ _ => false⟩

def web1Rec : DbRec := ⟨"web1", DState.Running⟩

/-- Lock-related events. -/
def hasLockEv : Ev → Bool
  | .lock _ => true
  | .unlock _ => true
  | _ => false

/-- Rollback fixture for the amended C5: the container-level snapshot
`web1@snap` is absent and the `home` partition lacks the label. -/
def st5b : SnapSt :=
  ⟨["web1"], ["web1/rootfs@snap", "web1/var@snap", "web1/opt@snap"], []⟩

/-! ### Claim theorems -/

/-- C1: the checksum gate is the claimed behavior on the completed-transfer
gateway path and on the peer-network path, but the gateway path has a slip
that breaks the claim: when the HTTP transfer itself errors (`resp.Err()`
non-nil), `doDownload` executes `return err` with the stale nil
`grab.NewRequest` error and reports success without ever verifying the
checksum — so a fetch whose bytes do not hash to the declared digest is
treated as obtained.  Evaluated here at the failing input `brokenTransfer`:
the digest mismatches, yet `doDownload` returns nil; the same mismatch on a
completed transfer and on the IPFS path correctly fails. -/
theorem doDownload_transfer_error_skips_checksum :
    verifyChecksum mismatchDigests tmplFix ("cache/" ++ tmplFix.id) = false ∧
    doDownload "cache" brokenTransfer tmplFix "https://cdn.example/QmTid/master.tar.gz" =
      none ∧
    doDownload "cache" corruptTransfer tmplFix "https://cdn.example/QmTid/master.tar.gz" =
      some "File integrity verification failed" ∧
    downloadViaLocalIPFSNode "cache" ipfsMismatchEnv tmplFix =
      some "File integrity verification failed" := by decide

/-- C2: counterexample — with a persistent digest mismatch the gateway retry
loop makes three `doDownload` calls in total, i.e. two re-fetches after the
initial fetch, not the claimed exactly one re-fetch. -/
theorem downloadFromGateway_two_refetches_cex :
    (downloadFromGateway "cache" alwaysCorruptGateway tmplFix).1 = 3 ∧
    ¬ (downloadFromGateway "cache" alwaysCorruptGateway tmplFix).1 = 2 ∧
    (downloadFromGateway "cache" alwaysCorruptGateway tmplFix).2 =
      some "File integrity verification failed" := by decide

/-- C2 (amended): for every gateway download whose fetched archive's computed
digest differs from the declared digest on every attempt (with the transfer
itself completing), the loop performs exactly `maxDownloadAttempts = 3`
fetches — the initial fetch plus two re-fetches — before failing permanently,
and the trailing ErrorLevel check aborts the import, so the pipeline does not
proceed past the verification step. -/
theorem downloadFromGateway_integrity_retry_budget
    (cacheDir : String) (g : GatewayEnv) (t : Template) (u : String)
    (hu : getTemplateUrl g t = some u)
    (hreq : ∀ n, (g.attempts t.id n).newReqErr = none)
    (hresp : ∀ n, (g.attempts t.id n).respErr = none)
    (hbad : ∀ n, verifyChecksum (g.attempts t.id n).digests t
      (cacheDir ++ "/" ++ t.id) = false) :
    downloadFromGateway cacheDir g t = (3, some "File integrity verification failed") ∧
    downloadCompletedCheck (downloadFromGateway cacheDir g t) =
      .err "File integrity verification failed" := by
  have hdo : ∀ n, doDownload cacheDir (g.attempts t.id n) t u =
      some "File integrity verification failed" := by
    intro n
    unfold doDownload
    rw [hreq n]
    simp [hresp n, hbad n]
  have hmain : downloadFromGateway cacheDir g t =
      (3, some "File integrity verification failed") := by
    unfold downloadFromGateway
    rw [hu]
    simp only [gatewayLoop, maxDownloadAttempts, gatewayLoopAux, hdo]
    norm_num
  exact ⟨hmain, by rw [hmain]; rfl⟩

/-- C2 (amended) witness at the concrete persistent-mismatch environment. -/
theorem downloadFromGateway_integrity_retry_budget_witness :
    downloadFromGateway "cache" alwaysCorruptGateway tmplFix =
      (3, some "File integrity verification failed") ∧
    downloadCompletedCheck (downloadFromGateway "cache" alwaysCorruptGateway tmplFix) =
      .err "File integrity verification failed" :=
  downloadFromGateway_integrity_retry_budget "cache" alwaysCorruptGateway tmplFix
    "https://cdn.example/QmTid/master.tar.gz" (by decide)
    (fun _ => rfl) (fun _ => rfl) (fun _ => rfl)

/-- C4: importing `c@o:1.0.0` whose parent chain is C → B → A → A (A a
self-referencing root) succeeds, creates the datasets in the order A, B, C
with each reference installed exactly once, and resolves each reference's
metadata exactly once (C, then B, then A); the recursion stops at A because
A's declared parent equals A itself. -/
theorem LxcImport_chain_installs_ancestors_first :
    (LxcImport chainEnv 5 emptySt "c@o:1.0.0" "" []).res = .ok ∧
    (LxcImport chainEnv 5 emptySt "c@o:1.0.0" "" []).evs.filterMap createdRef =
      ["a:o:1.0.0", "b:o:1.0.0", "c:o:1.0.0"] ∧
    (LxcImport chainEnv 5 emptySt "c@o:1.0.0" "" []).evs.filterMap resolvedRef =
      ["c@o:1.0.0", "b:o:1.0.0", "a:o:1.0.0"] := by decide

/-- C8: `checkPartitionName` accepts exactly the six strings rootfs, home,
var, opt, config, all, and rejects every other string, the empty string
included (the callers lower-case and trim their argument before the check,
so a case-variant is accepted exactly when it normalizes to a member). -/
theorem checkPartitionName_accepts_exactly_six (p : String) :
    checkPartitionName p = true ↔
      p = "rootfs" ∨ p = "home" ∨ p = "var" ∨ p = "opt" ∨ p = "config" ∨ p = "all" := by
  unfold checkPartitionName ChildDatasets
  by_cases h0 : p = ""
  · subst h0
    simp
  · by_cases hc : p = "config" ∨ p = "all"
    · simp only [if_neg h0, if_pos hc]
      constructor
      · intro _
        tauto
      · intro _
        trivial
    · simp only [if_neg h0, if_neg hc]
      push_neg at hc
      simp [List.contains, hc.1, hc.2, beq_iff_eq]

/-- C8 witness: instantiation at a member and evaluation. -/
theorem checkPartitionName_accepts_exactly_six_witness :
    checkPartitionName "rootfs" = true ↔
      "rootfs" = "rootfs" ∨ "rootfs" = "home" ∨ "rootfs" = "var" ∨ "rootfs" = "opt" ∨
      "rootfs" = "config" ∨ "rootfs" = "all" :=
  checkPartitionName_accepts_exactly_six "rootfs"

/-- C5: counterexample — with the container-level snapshot `web1@snap`
present but the `home` partition lacking the label, the `checkCondition`
precondition passes on `web1@snap` alone, the per-partition existence check
never runs, and the rollback proceeds (four rollback mutations, reported
success) even though a fixed partition lacks a snapshot with the label. -/
theorem rollback_all_skips_partition_check_cex :
    st5.datasets.contains (getSnapshotName "web1" "home" "snap") = false ∧
    (RollbackToSnapshot env5 st5 "web1" "all" "snap" false false).res = .ok ∧
    ¬ (RollbackToSnapshot env5 st5 "web1" "all" "snap" false false).evs.filter
        isRollbackEv = [] := by decide

/-- C5 (amended): rollback with partition `all` fails before performing any
rollback (the trace is empty, so no snapshot or dataset state is mutated)
whenever the container-level snapshot `container@label` is absent and at
least one of the four fixed partitions lacks a snapshot with the label; when
`container@label` exists the per-partition precondition is skipped and the
rollback proceeds on whatever `@label` snapshots are listed. -/
theorem rollback_all_missing_partition_fails_early
    (env : SnapEnv) (st : SnapSt) (container partition label : String)
    (force stopC : Bool)
    (hp : goToLower (goTrim partition) = "all")
    (hc : ¬ goTrim container = "")
    (hcc : st.containers.contains (goTrim container) = true)
    (hl : ¬ goToLower (goTrim label) = "")
    (hroot : st.datasets.contains
      (getSnapshotName (goTrim container) "all" (goToLower (goTrim label))) = false)
    (hmiss : ∃ p ∈ ChildDatasets,
      st.datasets.contains
        (getSnapshotName (goTrim container) p (goToLower (goTrim label))) = false) :
    (∃ m, (RollbackToSnapshot env st container partition label force stopC).res = .err m) ∧
    (RollbackToSnapshot env st container partition label force stopC).evs = [] := by
  obtain ⟨part, hpart, hpartmiss⟩ := hmiss
  have hfind : (ChildDatasets.find? (fun q =>
      ! st.datasets.contains
        (getSnapshotName (goTrim container) q (goToLower (goTrim label))))).isSome := by
    rw [List.find?_isSome]
    exact ⟨part, hpart, by rw [hpartmiss]; rfl⟩
  obtain ⟨part2, hfind2⟩ := Option.isSome_iff_exists.mp hfind
  have hfound := List.find?_some hfind2
  unfold RollbackToSnapshot
  rw [hp]
  simp only [if_neg hc, hcc, hroot, hfind2]
  norm_num [checkPartitionName, if_neg hl]
  rw [if_neg (show ¬ ("all" : String) = "" by decide)]
  exact ⟨⟨_, rfl⟩, rfl⟩

/-- C5 (amended) witness at the concrete fixture. -/
theorem rollback_all_missing_partition_fails_early_witness :
    (∃ m, (RollbackToSnapshot env5 st5b "web1" "all" "snap" false false).res = .err m) ∧
    (RollbackToSnapshot env5 st5b "web1" "all" "snap" false false).evs = [] :=
  rollback_all_missing_partition_fails_early env5 st5b "web1" "all" "snap" false false
    (by decide) (by decide) (by decide) (by decide) (by decide)
    ⟨"home", by decide, by decide⟩

/-- C6: `ReceiveContainerSnapshots` extracts the archive and, whenever any of
the four per-partition delta files or the config file is missing from it,
fails with only the decompression in its trace — before creating the target
dataset or receiving any delta stream — and leaves the dataset state exactly
as it was. -/
theorem receive_missing_delta_fails_before_mutation
    (env : RecvEnv) (st : SnapSt) (container sourceFile : String) (fl : List String)
    (hc : ¬ goTrim container = "")
    (hsf : ¬ goTrim sourceFile = "")
    (hsrc : st.files.contains (goTrim sourceFile) = true)
    (hfl : env.archiveFiles (goTrim sourceFile) = some fl)
    (hmiss : (∃ p ∈ ChildDatasets, fl.contains (p ++ ".delta") = false) ∨
             fl.contains "config" = false) :
    ∃ m, ReceiveContainerSnapshots env st container sourceFile =
      ⟨[Ev.decompress (goTrim sourceFile)
          (env.cacheDir ++ "/" ++ getFileName (goTrim sourceFile))], .err m, st⟩ := by
  unfold ReceiveContainerSnapshots
  rcases hfind : ChildDatasets.find? (fun p => ! fl.contains (p ++ ".delta")) with _ | part
  · have hconf : fl.contains "config" = false := by
      rcases hmiss with ⟨p, hp, hmp⟩ | h
      · exfalso
        have hall := List.find?_eq_none.mp hfind p hp
        rw [hmp] at hall
        simp at hall
      · exact h
    simp only [if_neg hc, if_neg hsf, hsrc, hfl, hfind, hconf, eq_self_iff_true, if_true]
    exact ⟨_, rfl⟩
  · simp only [if_neg hc, if_neg hsf, hsrc, hfl, hfind, eq_self_iff_true, if_true]
    exact ⟨_, rfl⟩

/-- C6 witness: Scenario D — a bundle missing `var.delta` fails before
creating or mutating the `web1` dataset. -/
theorem receive_missing_delta_fails_before_mutation_witness :
    ∃ m, ReceiveContainerSnapshots recvEnv6 st6 "web1" "/bundle.tar.gz" =
      ⟨[Ev.decompress (goTrim "/bundle.tar.gz")
          (recvEnv6.cacheDir ++ "/" ++ getFileName (goTrim "/bundle.tar.gz"))],
       .err m, st6⟩ :=
  receive_missing_delta_fails_before_mutation recvEnv6 st6 "web1" "/bundle.tar.gz"
    ["rootfs.delta", "home.delta", "opt.delta", "config"]
    (by decide) (by decide) (by decide) (by decide)
    (Or.inl ⟨"var", by decide, by decide⟩)

/-- C7: in one reconciliation cycle, a desired-Running container that is not
actually running and whose starts fail every time is started 6 times in all
(1 initial + 5 retries) with sleeps of 5, 6, 7, 8, 9 seconds between
attempts, after which its persisted record is downgraded to Stopped by
exactly one save; the next cycle performs no further start for it (its
record is no longer in the desired-Running subset) until the record is
externally promoted back to Running. -/
theorem doRestore_downgrades_after_six_failed_starts
    (env : SupEnv) (db : List DbRec) (v : DbRec)
    (hfe : env.fetchErr = false)
    (hact : db.filter (fun r => decide (r.state = DState.Running)) = [v])
    (hrun : env.runningNow v.name = false)
    (hstart : ∀ i, env.startOk v.name i = false) :
    doRestore env db =
      ([Ev.startContainer v.name, Ev.sleep 5, Ev.startContainer v.name, Ev.sleep 6,
        Ev.startContainer v.name, Ev.sleep 7, Ev.startContainer v.name, Ev.sleep 8,
        Ev.startContainer v.name, Ev.sleep 9, Ev.startContainer v.name,
        Ev.saveContainer v.name],
       saveRec db { v with state := DState.Stopped }) ∧
    (doRestore env (saveRec db { v with state := DState.Stopped })).1 = [] := by
  have hhandle : handleEntry env v =
      ([Ev.startContainer v.name, Ev.sleep 5, Ev.startContainer v.name, Ev.sleep 6,
        Ev.startContainer v.name, Ev.sleep 7, Ev.startContainer v.name, Ev.sleep 8,
        Ev.startContainer v.name, Ev.sleep 9, Ev.startContainer v.name,
        Ev.saveContainer v.name], some { v with state := DState.Stopped }) := by
    unfold handleEntry
    rw [hrun, hstart 0]
    norm_num [retryLoop, hstart]
  have hnil : (saveRec db { v with state := DState.Stopped }).filter
      (fun r => decide (r.state = DState.Running)) = [] := by
    rw [List.filter_eq_nil_iff]
    intro r hr
    obtain ⟨r0, hr0, hmap⟩ := List.mem_map.mp hr
    by_cases hn : r0.name = v.name
    · rw [if_pos hn] at hmap
      rw [← hmap]
      simp
    · rw [if_neg hn] at hmap
      rw [← hmap]
      intro hrun0
      have hmem : r0 ∈ db.filter (fun r => decide (r.state = DState.Running)) :=
        List.mem_filter.mpr ⟨hr0, hrun0⟩
      rw [hact] at hmem
      have : r0 = v := by simpa using hmem
      exact hn (by rw [this])
  constructor
  · unfold doRestore
    rw [hfe, if_neg (by simp), hact]
    simp [restoreLoop, hhandle]
  · unfold doRestore
    rw [hfe, if_neg (by simp), hnil]
    simp [restoreLoop]

/-- C7 witness at the concrete always-failing environment. -/
theorem doRestore_downgrades_after_six_failed_starts_witness :
    doRestore supFailEnv [web1Rec] =
      ([Ev.startContainer "web1", Ev.sleep 5, Ev.startContainer "web1", Ev.sleep 6,
        Ev.startContainer "web1", Ev.sleep 7, Ev.startContainer "web1", Ev.sleep 8,
        Ev.startContainer "web1", Ev.sleep 9, Ev.startContainer "web1",
        Ev.saveContainer "web1"],
       saveRec [web1Rec] { web1Rec with state := DState.Stopped }) ∧
    (doRestore supFailEnv (saveRec [web1Rec] { web1Rec with state := DState.Stopped })).1 =
      [] :=
  doRestore_downgrades_after_six_failed_starts supFailEnv [web1Rec] web1Rec
    rfl (by decide) rfl (fun _ => rfl)

/-- C3: counterexample — importing the already-installed reference
`master:subutai:4.0.0` a second time reports success, but the invocation
still performs a network call: `getTemplateInfo` contacts the CDN before the
lock and the installed-instance short-circuit, so "no network calls during
the second invocation" is false on the code. -/
theorem import_second_run_makes_network_call_cex :
    (LxcImport envMaster 5 stInstalled "master@subutai:4.0.0" "" []).res = .ok ∧
    (LxcImport envMaster 5 stInstalled "master@subutai:4.0.0" "" []).evs.filter
        isNetworkEv = [Ev.netResolve "master@subutai:4.0.0"] := by decide

/-- C3 (amended): for every reference whose computed template reference is
already registered as an instance, a (non-management) import invocation
short-circuits: it reports success and performs no dataset-mutating call and
no archive download — but it does re-resolve the template metadata over the
network first, so the second invocation is free of mutations and downloads,
not of network calls altogether. -/
theorem import_already_installed_short_circuit
    (env : ImportEnv) (st : ImportSt) (fuel : Nat) (name token : String)
    (aux : List String) (t : Template)
    (hroot : env.rootMounted = true)
    (hlocal : st.files.contains name = false)
    (hres : env.resolve name = some t)
    (hinst : st.instances.contains (t.name ++ ":" ++ t.owner ++ ":" ++ t.version) = true)
    (hmgmt : ¬ t.name = Management) :
    (LxcImport env (fuel + 1) st name token aux).res = .ok ∧
    (LxcImport env (fuel + 1) st name token aux).evs.filter isDatasetMutEv = [] ∧
    (LxcImport env (fuel + 1) st name token aux).evs.filter isDownloadEv = [] := by
  unfold LxcImport
  rw [hroot]
  by_cases hearly : st.instances.contains name = true ∧ name = Management ∧
      goLength token > 1
  · simp only [if_pos hearly]
    simp [isDatasetMutEv, isDownloadEv]
  · simp only [if_neg hearly]
    have hlocal2 : ¬ name ∈ st.files := by simpa using hlocal
    have hinst2 : (t.name ++ ":" ++ t.owner ++ ":" ++ t.version) ∈ st.instances := by
      simpa using hinst
    simp [hlocal2, hres, importBody, hinst2, hmgmt, withEvs, withLock,
          isDatasetMutEv, isDownloadEv]

/-- C3 (amended) witness at the installed `master:subutai:4.0.0` fixture. -/
theorem import_already_installed_short_circuit_witness :
    (LxcImport envMaster (4 + 1) stInstalled "master@subutai:4.0.0" "" []).res = .ok ∧
    (LxcImport envMaster (4 + 1) stInstalled "master@subutai:4.0.0" "" []).evs.filter
        isDatasetMutEv = [] ∧
    (LxcImport envMaster (4 + 1) stInstalled "master@subutai:4.0.0" "" []).evs.filter
        isDownloadEv = [] :=
  import_already_installed_short_circuit envMaster stInstalled 4
    "master@subutai:4.0.0" "" [] tMaster rfl (by decide) (by decide) (by decide)
    (by decide)

/-! Helper lemmas for the trace invariants of `LxcImport`. -/

theorem dbc_nil : destroyBeforeCreate [] := by
  intro i r hi
  simp at hi

theorem dbc_of_no_create (l : List Ev) (h : ∀ e ∈ l, createdRef e = none) :
    destroyBeforeCreate l := by
  intro i r hi
  exfalso
  have hmem : Ev.createDataset r ∈ l := List.get?_mem hi
  have hval := h _ hmem
  simp [createdRef] at hval

theorem dbc_cons (e : Ev) (l : List Ev) (he : createdRef e = none)
    (h : destroyBeforeCreate l) : destroyBeforeCreate (e :: l) := by
  intro i r hi
  cases i with
  | zero =>
    simp at hi
    rw [hi] at he
    simp [createdRef] at he
  | succ n =>
    obtain ⟨j, hj, hp⟩ := h n r hi
    exact ⟨j + 1, by omega, hp⟩

theorem dbc_append (a b : List Ev) (ha : destroyBeforeCreate a)
    (hb : destroyBeforeCreate b) : destroyBeforeCreate (a ++ b) := by
  intro i r hi
  by_cases hlt : i < a.length
  · rw [List.get?_append hlt] at hi
    obtain ⟨j, hj, hp⟩ := ha i r hi
    refine ⟨j, hj, ?_⟩
    rw [List.get?_append (by omega)]
    exact hp
  · push_neg at hlt
    rw [List.get?_append_right hlt] at hi
    obtain ⟨j, hj, hp⟩ := hb _ r hi
    refine ⟨a.length + j, by omega, ?_⟩
    rw [List.get?_append_right (by omega)]
    simpa [Nat.add_sub_cancel_left] using hp

theorem dbc_append_no_create (a rest : List Ev) (ha : destroyBeforeCreate a)
    (h : ∀ e ∈ rest, createdRef e = none) : destroyBeforeCreate (a ++ rest) :=
  dbc_append a rest ha (dbc_of_no_create rest h)

theorem dbc_guarded (pre : List Ev) (r : String) (tail : List Ev)
    (hpre : ∃ j, j < pre.length ∧
      (pre.get? j = some (Ev.destroyDataset r true) ∨
       pre.get? j = some (Ev.datasetCheck r false)))
    (hprenc : ∀ e ∈ pre, createdRef e = none)
    (htail : ∀ e ∈ tail, createdRef e = none) :
    destroyBeforeCreate (pre ++ Ev.createDataset r :: tail) := by
  intro i r2 hi
  by_cases hlt : i < pre.length
  · rw [List.get?_append hlt] at hi
    exfalso
    have hval := hprenc _ (List.get?_mem hi)
    simp [createdRef] at hval
  · push_neg at hlt
    rw [List.get?_append_right hlt] at hi
    rcases Nat.eq_or_lt_of_le hlt with heq | hlt2
    · have h0 : i - pre.length = 0 := by omega
      rw [h0] at hi
      simp at hi
      obtain ⟨j, hj, hp⟩ := hpre
      refine ⟨j, by omega, ?_⟩
      rw [List.get?_append (by omega), ← hi]
      exact hp
    · exfalso
      have h0 : i - pre.length = (i - pre.length - 1) + 1 := by omega
      rw [h0, List.get?_cons_succ] at hi
      have hval := htail _ (List.get?_mem hi)
      simp [createdRef] at hval

theorem recvAllTr_no_create (fso : FsOracle) (tn : String) (l : List String) :
    ∀ e ∈ (recvAllTr fso tn l).1, createdRef e = none := by
  induction l with
  | nil =>
    intro e he
    simp [recvAllTr] at he
  | cons p rest ih =>
    intro e he
    by_cases hok : fso.receiveOk (tn ++ "/" ++ p) = true
    · simp only [recvAllTr, if_pos hok] at he
      rcases List.mem_cons.mp he with rfl | he2
      · rfl
      · exact ih e he2
    · simp only [recvAllTr, if_neg hok] at he
      rcases List.mem_singleton.mp he with rfl
      rfl

theorem setROAllTr_no_create (fso : FsOracle) (tn : String) (l : List String) :
    ∀ e ∈ (setROAllTr fso tn l).1, createdRef e = none := by
  induction l with
  | nil =>
    intro e he
    simp [setROAllTr] at he
  | cons p rest ih =>
    intro e he
    by_cases hok : fso.setROOk (tn ++ "/" ++ p) = true
    · simp only [setROAllTr, if_pos hok] at he
      rcases List.mem_cons.mp he with rfl | he2
      · rfl
      · exact ih e he2
    · simp only [setROAllTr, if_neg hok] at he
      rcases List.mem_singleton.mp he with rfl
      rfl

theorem install_evs_shape (fso : FsOracle) (tn : String) :
    ∃ tail, (install fso tn).1 = Ev.createDataset tn :: tail ∧
      ∀ e ∈ tail, createdRef e = none := by
  unfold install
  by_cases h1 : fso.createOk tn = true
  · rw [if_pos h1]
    by_cases h2 : (recvAllTr fso tn ChildDatasets).2 = true
    · rw [if_pos h2]
      by_cases h3 : (setROAllTr fso tn ChildDatasets).2 = true
      · rw [if_pos h3]
        refine ⟨_, rfl, ?_⟩
        intro e he
        rcases List.mem_append.mp he with he2 | he2
        · rcases List.mem_append.mp he2 with he3 | he3
          · exact recvAllTr_no_create fso tn ChildDatasets e he3
          · exact setROAllTr_no_create fso tn ChildDatasets e he3
        · rcases List.mem_singleton.mp he2 with rfl
          rfl
      · rw [if_neg h3]
        refine ⟨_, rfl, ?_⟩
        intro e he
        rcases List.mem_append.mp he with he2 | he2
        · exact recvAllTr_no_create fso tn ChildDatasets e he2
        · exact setROAllTr_no_create fso tn ChildDatasets e he2
    · rw [if_neg h2]
      refine ⟨_, rfl, ?_⟩
      intro e he
      exact recvAllTr_no_create fso tn ChildDatasets e he
  · rw [if_neg h1]
    exact ⟨[], rfl, by intro e he; simp at he⟩

theorem dbc_installStep (fso : FsOracle) (st : ImportSt) (ref : String) :
    destroyBeforeCreate (installStep fso st ref).1 := by
  obtain ⟨tail, hte, htail⟩ := install_evs_shape fso ref
  by_cases hds : st.datasets.contains ref = true
  · have heq : (installStep fso st ref).1 =
        [Ev.datasetCheck ref true, Ev.destroyDataset ref true] ++
          (Ev.createDataset ref :: tail) := by
      unfold installStep
      rw [hds]
      simp [hte]
    rw [heq]
    apply dbc_guarded
    · exact ⟨1, by norm_num, Or.inl rfl⟩
    · intro e he
      rcases List.mem_cons.mp he with rfl | he2
      · rfl
      · rcases List.mem_singleton.mp he2 with rfl
        rfl
    · exact htail
  · have hds2 : st.datasets.contains ref = false := by
      simpa using hds
    have heq : (installStep fso st ref).1 =
        [Ev.datasetCheck ref false] ++ (Ev.createDataset ref :: tail) := by
      unfold installStep
      rw [hds2]
      simp [hte]
    rw [heq]
    apply dbc_guarded
    · exact ⟨0, by norm_num, Or.inr rfl⟩
    · intro e he
      rcases List.mem_singleton.mp he with rfl
      rfl
    · exact htail

theorem initManagement_no_create (st : ImportSt) (ref : String) :
    ∀ e ∈ (initManagement st ref).1, createdRef e = none := by
  intro e he
  simp [initManagement] at he
  rcases he with rfl | rfl | rfl | rfl <;> rfl

theorem importAfterParent_evs_shape (env : ImportEnv) (st : ImportSt) (lcl : Bool)
    (t : Template) (ref2 archive ed2 : String) :
    ∃ rest, (importAfterParent env st lcl t ref2 archive ed2).evs =
      (installStep env.fso st ref2).1 ++ rest ∧ ∀ e ∈ rest, createdRef e = none := by
  by_cases hm : t.name = Management
  · by_cases hl : lcl = true
    · refine ⟨[Ev.removeDir ed2, Ev.cloneDataset ref2 Management, Ev.setConf Management,
        Ev.startContainer Management, Ev.saveContainer Management], ?_, ?_⟩
      · unfold importAfterParent
        rw [if_pos hm, hl]
        simp [initManagement]
      · intro e he
        simp at he
        rcases he with rfl | rfl | rfl | rfl | rfl <;> rfl
    · refine ⟨[Ev.removeDir ed2, Ev.removeFile archive, Ev.cloneDataset ref2 Management,
        Ev.setConf Management, Ev.startContainer Management,
        Ev.saveContainer Management], ?_, ?_⟩
      · unfold importAfterParent
        rw [if_pos hm, Bool.of_not_eq_true hl]
        simp [initManagement]
      · intro e he
        simp at he
        rcases he with rfl | rfl | rfl | rfl | rfl | rfl <;> rfl
  · by_cases hl : lcl = true
    · refine ⟨[Ev.removeDir ed2, Ev.setConf ref2], ?_, ?_⟩
      · unfold importAfterParent
        rw [if_neg hm, hl]
        by_cases hsc : env.fso.setConfOk = true
        · rw [if_pos hsc]
          simp
        · rw [if_neg hsc]
          simp
      · intro e he
        simp at he
        rcases he with rfl | rfl <;> rfl
    · refine ⟨[Ev.removeDir ed2, Ev.removeFile archive, Ev.setConf ref2], ?_, ?_⟩
      · unfold importAfterParent
        rw [if_neg hm, Bool.of_not_eq_true hl]
        by_cases hsc : env.fso.setConfOk = true
        · rw [if_pos hsc]
          simp
        · rw [if_neg hsc]
          simp
      · intro e he
        simp at he
        rcases he with rfl | rfl | rfl <;> rfl

theorem dbc_importAfterParent (env : ImportEnv) (st : ImportSt) (lcl : Bool)
    (t : Template) (ref2 archive ed2 : String) :
    destroyBeforeCreate (importAfterParent env st lcl t ref2 archive ed2).evs := by
  obtain ⟨rest, heq, hrest⟩ := importAfterParent_evs_shape env st lcl t ref2 archive ed2
  rw [heq]
  exact dbc_append_no_create _ _ (dbc_installStep env.fso st ref2) hrest

theorem dbc_importParentStep (env : ImportEnv)
    (recur : ImportSt → String → String → List String → MRes)
    (st : ImportSt) (lcl : Bool) (t : Template)
    (ref2 archive ed2 token : String) (cfg : ConfigData) (aux : List String)
    (hrec : ∀ st2 n tk a, destroyBeforeCreate (recur st2 n tk a).evs) :
    destroyBeforeCreate
      (importParentStep env recur st lcl t ref2 archive ed2 token cfg aux).evs := by
  unfold importParentStep
  by_cases hpp : cfg.parent ++ ":" ++ cfg.parentOwner ++ ":" ++ cfg.parentVersion = ref2
  · rw [if_pos hpp]
    exact dbc_importAfterParent env st lcl t ref2 archive ed2
  · rw [if_neg hpp]
    by_cases hpt : st.templates.contains
        (cfg.parent ++ ":" ++ cfg.parentOwner ++ ":" ++ cfg.parentVersion) = true
    · rw [if_pos hpt]
      simp only [withEvs]
      apply dbc_append
      · exact dbc_of_no_create _ (by intro e he; rcases List.mem_singleton.mp he with rfl; rfl)
      · exact dbc_importAfterParent env st lcl t ref2 archive ed2
    · rw [if_neg hpt]
      by_cases hq : stringInList
          (cfg.parent ++ ":" ++ cfg.parentOwner ++ ":" ++ cfg.parentVersion) aux = true
      · rw [if_pos hq]
        simp only [withEvs]
        apply dbc_append
        · exact dbc_of_no_create _ (by intro e he; rcases List.mem_singleton.mp he with rfl; rfl)
        · exact dbc_importAfterParent env st lcl t ref2 archive ed2
      · rw [if_neg hq]
        rcases hres : (recur st (cfg.parent ++ ":" ++ cfg.parentOwner ++ ":" ++
            cfg.parentVersion) token (aux ++ [cfg.parent ++ ":" ++ cfg.parentOwner ++
            ":" ++ cfg.parentVersion, ref2])).res with _ | m
        · simp only [hres, withEvs, List.cons_append]
          apply dbc_cons
          · rfl
          · apply dbc_append
            · exact hrec _ _ _ _
            · exact dbc_importAfterParent env _ lcl t ref2 archive ed2
        · simp only [hres]
          apply dbc_cons
          · rfl
          · exact hrec _ _ _ _

theorem dbc_importCheckExisting (env : ImportEnv)
    (recur : ImportSt → String → String → List String → MRes)
    (st : ImportSt) (lcl : Bool) (t : Template)
    (ref2 archive ed2 token : String) (cfg : ConfigData) (aux : List String)
    (hrec : ∀ st2 n tk a, destroyBeforeCreate (recur st2 n tk a).evs) :
    destroyBeforeCreate
      (importCheckExisting env recur st lcl t ref2 archive ed2 token cfg aux).evs := by
  unfold importCheckExisting
  by_cases ht : st.templates.contains ref2 = true
  · rw [if_pos ht]
    apply dbc_of_no_create
    intro e he
    simp at he
    rcases he with rfl | rfl <;> rfl
  · rw [if_neg ht]
    simp only [withEvs]
    apply dbc_append
    · exact dbc_of_no_create _ (by intro e he; rcases List.mem_singleton.mp he with rfl; rfl)
    · exact dbc_importParentStep env recur st lcl t ref2 archive ed2 token cfg aux hrec

theorem dbc_importExtract (env : ImportEnv)
    (recur : ImportSt → String → String → List String → MRes)
    (st : ImportSt) (lcl : Bool) (t : Template)
    (ref archive token : String) (aux : List String)
    (hrec : ∀ st2 n tk a, destroyBeforeCreate (recur st2 n tk a).evs) :
    destroyBeforeCreate
      (importExtract env recur st lcl t ref archive token aux).evs := by
  unfold importExtract
  rcases hac : env.archiveConfig archive with _ | cfg
  · simp only [hac]
    apply dbc_of_no_create
    intro e he
    rcases List.mem_singleton.mp he with rfl
    rfl
  · simp only [hac]
    by_cases hl : lcl = true
    · rw [if_pos hl]
      by_cases hr : env.fso.renameOk = true
      · rw [if_pos hr]
        simp only [withEvs]
        apply dbc_append
        · apply dbc_of_no_create
          intro e he
          simp at he
          rcases he with rfl | rfl <;> rfl
        · exact dbc_importCheckExisting env recur st lcl t _ archive _ token cfg aux hrec
      · rw [if_neg hr]
        apply dbc_of_no_create
        intro e he
        simp at he
        rcases he with rfl | rfl <;> rfl
    · rw [if_neg hl]
      simp only [withEvs]
      apply dbc_append
      · exact dbc_of_no_create _ (by intro e he; rcases List.mem_singleton.mp he with rfl; rfl)
      · exact dbc_importCheckExisting env recur st lcl t ref archive _ token cfg aux hrec

theorem dbc_importEnsureArchive (env : ImportEnv)
    (recur : ImportSt → String → String → List String → MRes)
    (st : ImportSt) (lcl : Bool) (t : Template)
    (ref archive token : String) (aux : List String)
    (hrec : ∀ st2 n tk a, destroyBeforeCreate (recur st2 n tk a).evs) :
    destroyBeforeCreate
      (importEnsureArchive env recur st lcl t ref archive token aux).evs := by
  unfold importEnsureArchive
  by_cases hex : (st.files.contains archive &&
      (lcl || verifyChecksum env.digests t archive)) = true
  · rw [if_pos hex]
    exact dbc_importExtract env recur st lcl t ref archive token aux hrec
  · rw [if_neg hex]
    rcases hdl : downloadResult env t with _ | m
    · simp only [hdl, withEvs]
      apply dbc_append
      · exact dbc_of_no_create _ (by intro e he; rcases List.mem_singleton.mp he with rfl; rfl)
      · exact dbc_importExtract env recur _ lcl t ref archive token aux hrec
    · simp only [hdl]
      exact dbc_of_no_create _ (by intro e he; rcases List.mem_singleton.mp he with rfl; rfl)

theorem dbc_importBody (env : ImportEnv)
    (recur : ImportSt → String → String → List String → MRes)
    (st : ImportSt) (lcl : Bool) (t : Template)
    (ref archive token : String) (aux : List String)
    (hrec : ∀ st2 n tk a, destroyBeforeCreate (recur st2 n tk a).evs) :
    destroyBeforeCreate
      (importBody env recur st lcl t ref archive token aux).evs := by
  unfold importBody
  by_cases hi : st.instances.contains ref = true
  · rw [if_pos hi]
    by_cases hm : t.name = Management
    · rw [if_pos hm]
      by_cases hc : st.containers.contains Management = true
      · rw [if_pos hc]
        apply dbc_of_no_create
        intro e he
        simp at he
        rcases he with rfl | rfl <;> rfl
      · rw [if_neg hc]
        apply dbc_of_no_create
        intro e he
        simp [initManagement] at he
        rcases he with rfl | rfl | rfl | rfl | rfl | rfl <;> rfl
    · rw [if_neg hm]
      exact dbc_of_no_create _ (by intro e he; rcases List.mem_singleton.mp he with rfl; rfl)
  · rw [if_neg hi]
    simp only [withEvs]
    apply dbc_append
    · exact dbc_of_no_create _ (by intro e he; rcases List.mem_singleton.mp he with rfl; rfl)
    · exact dbc_importEnsureArchive env recur st lcl t ref archive token aux hrec

/-- C10: in every import trace, every dataset creation under a reference is
preceded either by a force-destroy of that same dataset (`container.Destroy`
with `force = true`) or by the dataset-existence check having found it
absent — so a pre-existing dataset under the computed template reference
never survives an import that reaches the install step. -/
theorem LxcImport_destroy_before_create (env : ImportEnv) (fuel : Nat) (st : ImportSt)
    (name token : String) (aux : List String) :
    destroyBeforeCreate (LxcImport env fuel st name token aux).evs := by
  induction fuel generalizing st name token aux with
  | zero =>
    simp only [LxcImport]
    exact dbc_nil
  | succ n ih =>
    unfold LxcImport
    by_cases hroot : env.rootMounted = true
    · rw [if_neg (by simp [hroot])]
      by_cases hearly : (st.instances.contains name = true ∧ name = Management ∧
          goLength token > 1)
      · rw [if_pos hearly]
        apply dbc_of_no_create
        intro e he
        simp at he
        rcases he with rfl | rfl | rfl <;> rfl
      · rw [if_neg hearly]
        by_cases hlcl : st.files.contains name = true
        · rw [if_pos hlcl]
          simp only [withEvs, withLock]
          apply dbc_append
          · apply dbc_of_no_create
            intro e he
            simp at he
            rcases he with rfl | rfl <;> rfl
          · apply dbc_cons
            · rfl
            · apply dbc_append
              · exact dbc_importBody env _ st true _ _ name token aux
                  (fun st2 n2 tk a => ih st2 n2 tk a)
              · exact dbc_of_no_create _
                  (by intro e he; rcases List.mem_singleton.mp he with rfl; rfl)
        · rw [if_neg hlcl]
          rcases hres : env.resolve name with _ | t
          · simp only [hres]
            apply dbc_of_no_create
            intro e he
            simp at he
            rcases he with rfl | rfl | rfl <;> rfl
          · simp only [hres, withEvs, withLock]
            apply dbc_append
            · apply dbc_of_no_create
              intro e he
              simp at he
              rcases he with rfl | rfl | rfl <;> rfl
            · apply dbc_cons
              · rfl
              · apply dbc_append
                · exact dbc_importBody env _ st false t _ _ token aux
                    (fun st2 n2 tk a => ih st2 n2 tk a)
                · exact dbc_of_no_create _
                    (by intro e he; rcases List.mem_singleton.mp he with rfl; rfl)
    · rw [if_pos hroot]
      exact dbc_of_no_create _
        (by intro e he; rcases List.mem_singleton.mp he with rfl; rfl)

/-- C10 witness: a concrete import over a pre-existing stale dataset; the
`createDataset` event sits at index 10 of the trace, and the theorem yields
the preceding force-destroy (index 9 is `destroyDataset "s:o:1.0.0" true`). -/
theorem LxcImport_destroy_before_create_witness :
    ∃ j, j < 10 ∧
      ((LxcImport envSelf 5 stStaleDs "s@o:1.0.0" "" []).evs.get? j =
          some (Ev.destroyDataset "s:o:1.0.0" true) ∨
        (LxcImport envSelf 5 stStaleDs "s@o:1.0.0" "" []).evs.get? j =
          some (Ev.datasetCheck "s:o:1.0.0" false)) :=
  LxcImport_destroy_before_create envSelf 5 stStaleDs "s@o:1.0.0" "" []
    10 "s:o:1.0.0" (by decide)

/-! Helper lemmas for the lock discipline of `LxcImport`. -/

theorem recvAllTr_all (P : Ev → Prop) (hrecv : ∀ ds, P (Ev.receiveStream ds))
    (fso : FsOracle) (tn : String) (l : List String) :
    ∀ e ∈ (recvAllTr fso tn l).1, P e := by
  induction l with
  | nil =>
    intro e he
    simp [recvAllTr] at he
  | cons p rest ih =>
    intro e he
    by_cases hok : fso.receiveOk (tn ++ "/" ++ p) = true
    · simp only [recvAllTr, if_pos hok] at he
      rcases List.mem_cons.mp he with rfl | he2
      · exact hrecv _
      · exact ih e he2
    · simp only [recvAllTr, if_neg hok] at he
      rcases List.mem_singleton.mp he with rfl
      exact hrecv _

theorem setROAllTr_all (P : Ev → Prop) (hro : ∀ ds, P (Ev.setReadOnly ds))
    (fso : FsOracle) (tn : String) (l : List String) :
    ∀ e ∈ (setROAllTr fso tn l).1, P e := by
  induction l with
  | nil =>
    intro e he
    simp [setROAllTr] at he
  | cons p rest ih =>
    intro e he
    by_cases hok : fso.setROOk (tn ++ "/" ++ p) = true
    · simp only [setROAllTr, if_pos hok] at he
      rcases List.mem_cons.mp he with rfl | he2
      · exact hro _
      · exact ih e he2
    · simp only [setROAllTr, if_neg hok] at he
      rcases List.mem_singleton.mp he with rfl
      exact hro _

theorem install_all (P : Ev → Prop)
    (hcr : ∀ s, P (Ev.createDataset s)) (hrecv : ∀ ds, P (Ev.receiveStream ds))
    (hro : ∀ ds, P (Ev.setReadOnly ds)) (hcp : ∀ s, P (Ev.copyCfg s))
    (fso : FsOracle) (tn : String) :
    ∀ e ∈ (install fso tn).1, P e := by
  intro e he
  unfold install at he
  by_cases h1 : fso.createOk tn = true
  · rw [if_pos h1] at he
    by_cases h2 : (recvAllTr fso tn ChildDatasets).2 = true
    · rw [if_pos h2] at he
      by_cases h3 : (setROAllTr fso tn ChildDatasets).2 = true
      · rw [if_pos h3] at he
        rcases List.mem_cons.mp he with rfl | he2
        · exact hcr _
        · rcases List.mem_append.mp he2 with he3 | he3
          · rcases List.mem_append.mp he3 with he4 | he4
            · exact recvAllTr_all P hrecv fso tn ChildDatasets e he4
            · exact setROAllTr_all P hro fso tn ChildDatasets e he4
          · rcases List.mem_singleton.mp he3 with rfl
            exact hcp _
      · rw [if_neg h3] at he
        rcases List.mem_cons.mp he with rfl | he2
        · exact hcr _
        · rcases List.mem_append.mp he2 with he3 | he3
          · exact recvAllTr_all P hrecv fso tn ChildDatasets e he3
          · exact setROAllTr_all P hro fso tn ChildDatasets e he3
    · rw [if_neg h2] at he
      rcases List.mem_cons.mp he with rfl | he2
      · exact hcr _
      · exact recvAllTr_all P hrecv fso tn ChildDatasets e he2
  · rw [if_neg h1] at he
    rcases List.mem_singleton.mp he with rfl
    exact hcr _

theorem installStep_all (P : Ev → Prop)
    (hchk : ∀ s b, P (Ev.datasetCheck s b)) (hdes : ∀ s b, P (Ev.destroyDataset s b))
    (hcr : ∀ s, P (Ev.createDataset s)) (hrecv : ∀ ds, P (Ev.receiveStream ds))
    (hro : ∀ ds, P (Ev.setReadOnly ds)) (hcp : ∀ s, P (Ev.copyCfg s))
    (fso : FsOracle) (st : ImportSt) (ref : String) :
    ∀ e ∈ (installStep fso st ref).1, P e := by
  intro e he
  unfold installStep at he
  rcases List.mem_append.mp he with he2 | he2
  · rcases List.mem_cons.mp he2 with rfl | he3
    · exact hchk _ _
    · by_cases hds : st.datasets.contains ref = true
      · rw [if_pos hds] at he3
        rcases List.mem_singleton.mp he3 with rfl
        exact hdes _ _
      · rw [if_neg hds] at he3
        simp at he3
  · exact install_all P hcr hrecv hro hcp fso ref e he2

theorem importAfterParent_all (P : Ev → Prop)
    (hchk : ∀ s b, P (Ev.datasetCheck s b)) (hdes : ∀ s b, P (Ev.destroyDataset s b))
    (hcr : ∀ s, P (Ev.createDataset s)) (hrecv : ∀ ds, P (Ev.receiveStream ds))
    (hro : ∀ ds, P (Ev.setReadOnly ds)) (hcp : ∀ s, P (Ev.copyCfg s))
    (hrd : ∀ d, P (Ev.removeDir d)) (hrf : ∀ f, P (Ev.removeFile f))
    (hsc : ∀ s, P (Ev.setConf s)) (hcl : ∀ a b, P (Ev.cloneDataset a b))
    (hst : ∀ n, P (Ev.startContainer n)) (hsv : ∀ n, P (Ev.saveContainer n))
    (env : ImportEnv) (st : ImportSt) (lcl : Bool) (t : Template)
    (ref2 archive ed2 : String) :
    ∀ e ∈ (importAfterParent env st lcl t ref2 archive ed2).evs, P e := by
  intro e he
  unfold importAfterParent at he
  by_cases hm : t.name = Management
  · rw [if_pos hm] at he
    have he2 : e ∈ (installStep env.fso st ref2).1 ++
        ([Ev.removeDir ed2] ++ (if lcl then [] else [Ev.removeFile archive]) ++
          [Ev.cloneDataset ref2 Management, Ev.setConf Management,
           Ev.startContainer Management, Ev.saveContainer Management]) := by
      simpa [initManagement, List.append_assoc] using he
    rcases List.mem_append.mp he2 with he3 | he3
    · exact installStep_all P hchk hdes hcr hrecv hro hcp env.fso st ref2 e he3
    · rcases List.mem_append.mp he3 with he4 | he4
      · rcases List.mem_append.mp he4 with he5 | he5
        · rcases List.mem_singleton.mp he5 with rfl
          exact hrd _
        · by_cases hl : lcl = true
          · rw [hl] at he5
            simp at he5
          · rw [Bool.of_not_eq_true hl] at he5
            rcases List.mem_singleton.mp he5 with rfl
            exact hrf _
      · simp at he4
        rcases he4 with rfl | rfl | rfl | rfl
        · exact hcl _ _
        · exact hsc _
        · exact hst _
        · exact hsv _
  · rw [if_neg hm] at he
    have he2 : e ∈ (installStep env.fso st ref2).1 ++
        ([Ev.removeDir ed2] ++ (if lcl then [] else [Ev.removeFile archive]) ++
          [Ev.setConf ref2]) := by
      by_cases hok : env.fso.setConfOk = true
      · rw [if_pos hok] at he
        simpa [List.append_assoc] using he
      · rw [if_neg hok] at he
        simpa [List.append_assoc] using he
    rcases List.mem_append.mp he2 with he3 | he3
    · exact installStep_all P hchk hdes hcr hrecv hro hcp env.fso st ref2 e he3
    · rcases List.mem_append.mp he3 with he4 | he4
      · rcases List.mem_append.mp he4 with he5 | he5
        · rcases List.mem_singleton.mp he5 with rfl
          exact hrd _
        · by_cases hl : lcl = true
          · rw [hl] at he5
            simp at he5
          · rw [Bool.of_not_eq_true hl] at he5
            rcases List.mem_singleton.mp he5 with rfl
            exact hrf _
      · rcases List.mem_singleton.mp he4 with rfl
        exact hsc _

theorem balanced_of_no_lock (l : List Ev) (h : ∀ e ∈ l, hasLockEv e = false) :
    lockBalanced l := by
  intro s
  have h1 : Ev.lock s ∉ l := fun hmem => by simpa [hasLockEv] using h _ hmem
  have h2 : Ev.unlock s ∉ l := fun hmem => by simpa [hasLockEv] using h _ hmem
  rw [List.count_eq_zero.mpr h1, List.count_eq_zero.mpr h2]

theorem balanced_append (a b : List Ev) (ha : lockBalanced a) (hb : lockBalanced b) :
    lockBalanced (a ++ b) := by
  intro s
  rw [List.count_append, List.count_append, ha s, hb s]

theorem balanced_cons_nonlock (e : Ev) (l : List Ev) (he : hasLockEv e = false)
    (h : lockBalanced l) : lockBalanced (e :: l) := by
  intro s
  have h1 : (e == Ev.lock s) = false := by
    rw [beq_eq_false_iff_ne]
    intro hh
    rw [hh] at he
    simp [hasLockEv] at he
  have h2 : (e == Ev.unlock s) = false := by
    rw [beq_eq_false_iff_ne]
    intro hh
    rw [hh] at he
    simp [hasLockEv] at he
  rw [List.count_cons, List.count_cons, h s]
  simp [h1, h2]

theorem balanced_withLock (ref : String) (m : MRes) (h : lockBalanced m.evs) :
    lockBalanced (withLock ref m).evs := by
  intro s
  by_cases hsr : s = ref
  · subst hsr
    simp [withLock, List.count_cons, List.count_append, h s]
  · simp [withLock, List.count_cons, List.count_append, h s, hsr]

theorem balanced_importAfterParent (env : ImportEnv) (st : ImportSt) (lcl : Bool)
    (t : Template) (ref2 archive ed2 : String) :
    lockBalanced (importAfterParent env st lcl t ref2 archive ed2).evs := by
  apply balanced_of_no_lock
  apply importAfterParent_all (fun e => hasLockEv e = false) <;> (intros; rfl)

theorem balanced_importParentStep (env : ImportEnv)
    (recur : ImportSt → String → String → List String → MRes)
    (st : ImportSt) (lcl : Bool) (t : Template)
    (ref2 archive ed2 token : String) (cfg : ConfigData) (aux : List String)
    (hrec : ∀ st2 n tk a, lockBalanced (recur st2 n tk a).evs) :
    lockBalanced
      (importParentStep env recur st lcl t ref2 archive ed2 token cfg aux).evs := by
  unfold importParentStep
  by_cases hpp : cfg.parent ++ ":" ++ cfg.parentOwner ++ ":" ++ cfg.parentVersion = ref2
  · rw [if_pos hpp]
    exact balanced_importAfterParent env st lcl t ref2 archive ed2
  · rw [if_neg hpp]
    by_cases hpt : st.templates.contains
        (cfg.parent ++ ":" ++ cfg.parentOwner ++ ":" ++ cfg.parentVersion) = true
    · rw [if_pos hpt]
      simp only [withEvs]
      apply balanced_append
      · exact balanced_of_no_lock _
          (by intro e he; rcases List.mem_singleton.mp he with rfl; rfl)
      · exact balanced_importAfterParent env st lcl t ref2 archive ed2
    · rw [if_neg hpt]
      by_cases hq : stringInList
          (cfg.parent ++ ":" ++ cfg.parentOwner ++ ":" ++ cfg.parentVersion) aux = true
      · rw [if_pos hq]
        simp only [withEvs]
        apply balanced_append
        · exact balanced_of_no_lock _
            (by intro e he; rcases List.mem_singleton.mp he with rfl; rfl)
        · exact balanced_importAfterParent env st lcl t ref2 archive ed2
      · rw [if_neg hq]
        rcases hres : (recur st (cfg.parent ++ ":" ++ cfg.parentOwner ++ ":" ++
            cfg.parentVersion) token (aux ++ [cfg.parent ++ ":" ++ cfg.parentOwner ++
            ":" ++ cfg.parentVersion, ref2])).res with _ | m
        · simp only [hres, withEvs, List.cons_append]
          apply balanced_cons_nonlock
          · rfl
          · apply balanced_append
            · exact hrec _ _ _ _
            · exact balanced_importAfterParent env _ lcl t ref2 archive ed2
        · simp only [hres]
          apply balanced_cons_nonlock
          · rfl
          · exact hrec _ _ _ _

theorem balanced_importCheckExisting (env : ImportEnv)
    (recur : ImportSt → String → String → List String → MRes)
    (st : ImportSt) (lcl : Bool) (t : Template)
    (ref2 archive ed2 token : String) (cfg : ConfigData) (aux : List String)
    (hrec : ∀ st2 n tk a, lockBalanced (recur st2 n tk a).evs) :
    lockBalanced
      (importCheckExisting env recur st lcl t ref2 archive ed2 token cfg aux).evs := by
  unfold importCheckExisting
  by_cases ht : st.templates.contains ref2 = true
  · rw [if_pos ht]
    apply balanced_of_no_lock
    intro e he
    simp at he
    rcases he with rfl | rfl <;> rfl
  · rw [if_neg ht]
    simp only [withEvs]
    apply balanced_append
    · exact balanced_of_no_lock _
        (by intro e he; rcases List.mem_singleton.mp he with rfl; rfl)
    · exact balanced_importParentStep env recur st lcl t ref2 archive ed2 token cfg aux hrec

theorem balanced_importExtract (env : ImportEnv)
    (recur : ImportSt → String → String → List String → MRes)
    (st : ImportSt) (lcl : Bool) (t : Template)
    (ref archive token : String) (aux : List String)
    (hrec : ∀ st2 n tk a, lockBalanced (recur st2 n tk a).evs) :
    lockBalanced (importExtract env recur st lcl t ref archive token aux).evs := by
  unfold importExtract
  rcases hac : env.archiveConfig archive with _ | cfg
  · simp only [hac]
    exact balanced_of_no_lock _
      (by intro e he; rcases List.mem_singleton.mp he with rfl; rfl)
  · simp only [hac]
    by_cases hl : lcl = true
    · rw [if_pos hl]
      by_cases hr : env.fso.renameOk = true
      · rw [if_pos hr]
        simp only [withEvs]
        apply balanced_append
        · apply balanced_of_no_lock
          intro e he
          simp at he
          rcases he with rfl | rfl <;> rfl
        · exact balanced_importCheckExisting env recur st lcl t _ archive _ token cfg aux hrec
      · rw [if_neg hr]
        apply balanced_of_no_lock
        intro e he
        simp at he
        rcases he with rfl | rfl <;> rfl
    · rw [if_neg hl]
      simp only [withEvs]
      apply balanced_append
      · exact balanced_of_no_lock _
          (by intro e he; rcases List.mem_singleton.mp he with rfl; rfl)
      · exact balanced_importCheckExisting env recur st lcl t ref archive _ token cfg aux hrec

theorem balanced_importEnsureArchive (env : ImportEnv)
    (recur : ImportSt → String → String → List String → MRes)
    (st : ImportSt) (lcl : Bool) (t : Template)
    (ref archive token : String) (aux : List String)
    (hrec : ∀ st2 n tk a, lockBalanced (recur st2 n tk a).evs) :
    lockBalanced (importEnsureArchive env recur st lcl t ref archive token aux).evs := by
  unfold importEnsureArchive
  by_cases hex : (st.files.contains archive &&
      (lcl || verifyChecksum env.digests t archive)) = true
  · rw [if_pos hex]
    exact balanced_importExtract env recur st lcl t ref archive token aux hrec
  · rw [if_neg hex]
    rcases hdl : downloadResult env t with _ | m
    · simp only [hdl, withEvs]
      apply balanced_append
      · exact balanced_of_no_lock _
          (by intro e he; rcases List.mem_singleton.mp he with rfl; rfl)
      · exact balanced_importExtract env recur _ lcl t ref archive token aux hrec
    · simp only [hdl]
      exact balanced_of_no_lock _
        (by intro e he; rcases List.mem_singleton.mp he with rfl; rfl)

theorem balanced_importBody (env : ImportEnv)
    (recur : ImportSt → String → String → List String → MRes)
    (st : ImportSt) (lcl : Bool) (t : Template)
    (ref archive token : String) (aux : List String)
    (hrec : ∀ st2 n tk a, lockBalanced (recur st2 n tk a).evs) :
    lockBalanced (importBody env recur st lcl t ref archive token aux).evs := by
  unfold importBody
  by_cases hi : st.instances.contains ref = true
  · rw [if_pos hi]
    by_cases hm : t.name = Management
    · rw [if_pos hm]
      by_cases hc : st.containers.contains Management = true
      · rw [if_pos hc]
        apply balanced_of_no_lock
        intro e he
        simp at he
        rcases he with rfl | rfl <;> rfl
      · rw [if_neg hc]
        apply balanced_of_no_lock
        intro e he
        simp [initManagement] at he
        rcases he with rfl | rfl | rfl | rfl | rfl | rfl <;> rfl
    · rw [if_neg hm]
      exact balanced_of_no_lock _
        (by intro e he; rcases List.mem_singleton.mp he with rfl; rfl)
  · rw [if_neg hi]
    simp only [withEvs]
    apply balanced_append
    · exact balanced_of_no_lock _
        (by intro e he; rcases List.mem_singleton.mp he with rfl; rfl)
    · exact balanced_importEnsureArchive env recur st lcl t ref archive token aux hrec

theorem balanced_LxcImport (env : ImportEnv) (fuel : Nat) (st : ImportSt)
    (name token : String) (aux : List String) :
    lockBalanced (LxcImport env fuel st name token aux).evs := by
  induction fuel generalizing st name token aux with
  | zero =>
    simp only [LxcImport]
    exact balanced_of_no_lock _ (by intro e he; simp at he)
  | succ n ih =>
    unfold LxcImport
    by_cases hroot : env.rootMounted = true
    · rw [if_neg (by simp [hroot])]
      by_cases hearly : (st.instances.contains name = true ∧ name = Management ∧
          goLength token > 1)
      · rw [if_pos hearly]
        apply balanced_of_no_lock
        intro e he
        simp at he
        rcases he with rfl | rfl | rfl <;> rfl
      · rw [if_neg hearly]
        by_cases hlcl : st.files.contains name = true
        · rw [if_pos hlcl]
          simp only [withEvs]
          apply balanced_append
          · apply balanced_of_no_lock
            intro e he
            simp at he
            rcases he with rfl | rfl <;> rfl
          · exact balanced_withLock _ _
              (balanced_importBody env _ st true _ _ name token aux
                (fun st2 n2 tk a => ih st2 n2 tk a))
        · rw [if_neg hlcl]
          rcases hres : env.resolve name with _ | t
          · simp only [hres]
            apply balanced_of_no_lock
            intro e he
            simp at he
            rcases he with rfl | rfl | rfl <;> rfl
          · simp only [hres, withEvs]
            apply balanced_append
            · apply balanced_of_no_lock
              intro e he
              simp at he
              rcases he with rfl | rfl | rfl <;> rfl
            · exact balanced_withLock _ _
                (balanced_importBody env _ st false t _ _ token aux
                  (fun st2 n2 tk a => ih st2 n2 tk a))
    · rw [if_pos hroot]
      exact balanced_of_no_lock _
        (by intro e he; rcases List.mem_singleton.mp he with rfl; rfl)

theorem lbc_of_decomp (ref : String) (a b : List Ev)
    (ha : ∀ e ∈ a, isRefCheckOf ref e = false) :
    lockBeforeChecks ref (a ++ Ev.lock ref :: b) := by
  intro i e hi hchk
  refine ⟨a.length, ?_, ?_⟩
  · rcases Nat.lt_or_ge i a.length with hlt | hge
    · exfalso
      rw [List.get?_append hlt] at hi
      have hv := ha _ (List.get?_mem hi)
      rw [hv] at hchk
      simp at hchk
    · rcases Nat.eq_or_lt_of_le hge with heq | hlt2
      · exfalso
        rw [← heq, List.get?_append_right (by omega)] at hi
        rw [Nat.sub_self] at hi
        simp at hi
        rw [← hi] at hchk
        simp [isRefCheckOf] at hchk
      · omega
  · rw [List.get?_append_right (le_refl a.length)]
    simp

/-- C9: for every import invocation, the import lock keyed by the computed
template reference is acquired before any check of whether that reference is
already installed (`LxcInstanceExists`, `IsTemplate` or `DatasetExists` on
it), and every lock acquisition in the trace has a matching release — the
deferred unlock runs on every exit path (success, the already-installed
short-circuit, and failure).  The checks performed before the lock target
the raw argument (`LxcInstanceExists(name)` of the management early path)
and the network, never the computed reference, provided the raw argument
differs from the computed reference. -/
theorem LxcImport_lock_discipline (env : ImportEnv) (fuel : Nat) (st : ImportSt)
    (name token : String) (aux : List String) (ref : String)
    (href : computedRef env st name token = some ref)
    (hname : ¬ name = ref) :
    lockBalanced (LxcImport env fuel st name token aux).evs ∧
    lockBeforeChecks ref (LxcImport env fuel st name token aux).evs := by
  refine ⟨balanced_LxcImport env fuel st name token aux, ?_⟩
  unfold computedRef at href
  cases fuel with
  | zero =>
    simp only [LxcImport]
    intro i e hi hchk
    simp at hi
  | succ n =>
    unfold LxcImport
    by_cases hroot : env.rootMounted = true
    · rw [if_neg (by simp [hroot])]
      rw [if_neg (by simp [hroot])] at href
      by_cases hearly : (st.instances.contains name = true ∧ name = Management ∧
          goLength token > 1)
      · rw [if_pos hearly] at href
        simp at href
      · rw [if_neg hearly] at href
        rw [if_neg hearly]
        by_cases hlcl : st.files.contains name = true
        · rw [if_pos hlcl] at href
          rw [if_pos hlcl]
          simp only [Option.some.injEq] at href
          subst href
          simp only [withEvs, withLock]
          apply lbc_of_decomp
          intro e he
          simp at he
          rcases he with rfl | rfl
          · rfl
          · simp [isRefCheckOf, hname]
        · rw [if_neg hlcl] at href
          rw [if_neg hlcl]
          rcases hres : env.resolve name with _ | t
          · rw [hres] at href
            simp at href
          · rw [hres] at href
            simp only [Option.some.injEq] at href
            subst href
            simp only [hres, withEvs, withLock]
            apply lbc_of_decomp
            intro e he
            simp at he
            rcases he with rfl | rfl | rfl
            · rfl
            · simp [isRefCheckOf, hname]
            · rfl
    · rw [if_pos hroot] at href
      simp at href

/-- C9 witness at the installed `master:subutai:4.0.0` fixture: the computed
reference differs from the raw argument, the trace's lock/unlock counts
match, and every installed-check of the reference follows the lock. -/
theorem LxcImport_lock_discipline_witness :
    lockBalanced (LxcImport envMaster 5 stInstalled "master@subutai:4.0.0" "" []).evs ∧
    lockBeforeChecks "master:subutai:4.0.0"
      (LxcImport envMaster 5 stInstalled "master@subutai:4.0.0" "" []).evs :=
  LxcImport_lock_discipline envMaster 5 stInstalled "master@subutai:4.0.0" "" []
    "master:subutai:4.0.0" (by decide) (by decide)
